import Mathlib

/-!
Verification of uringnet: submission entries, opcode preparers, fixed-buffer arena

A shallow embedding of the Go package `uring` (`core.go`, `ops.go`), of the
allocator of `uring/fixed` (`allocator.go`) and of the filesystem facade of
`uring/fs` (`file.go`, `fs.go`).

Conventions of the embedding.

* Unsigned machine integers are `Nat`, signed ones are `Int`.  A Go conversion
  that can lose bits (`int32(fd)`, `uint32(len)`) is an explicit wrap; a plain
  assignment of an already typed value stores the value unchanged, and a
  widening conversion (`uint64(uintptr(p))`, `int(int32)`) is the identity.
* A pointer is the address it holds (`Nat`); a slice is its header: the address
  of its first element together with what it views.
* A Go run-time panic (index or slice bounds out of range) is `none`.
-/

namespace uring

/-! ## Machine integers -/

/-- Conversion to `uint32`: keep the low 32 bits. -/
def toUint32 (n : Nat) : Nat := n % 2 ^ 32

/-- Conversion of an unsigned word to `int32`: keep the low 32 bits and read
them in two's complement. -/
def toInt32 (n : Nat) : Int :=
  if n % 2 ^ 32 < 2 ^ 31 then ((n % 2 ^ 32 : Nat) : Int)
  else ((n % 2 ^ 32 : Nat) : Int) - 2 ^ 32

/-- Result of a signed 32-bit operation: wrap into `[-2^31, 2^31)`. -/
def wrapInt32 (x : Int) : Int := (x + 2 ^ 31) % 2 ^ 32 - 2 ^ 31

/-- Result of a signed 64-bit (`int`) operation: wrap into `[-2^63, 2^63)`. -/
def wrapInt64 (x : Int) : Int := (x + 2 ^ 63) % 2 ^ 64 - 2 ^ 63

/-- Conversion of a signed value to `uintptr` (64 bits): sign-extend and read
the word as unsigned. -/
def toUintptr (x : Int) : Nat := (x % 2 ^ 64).toNat

/-! ## Constants of `core.go` -/

-- operations: `const ( IORING_OP_NOP uint8 = iota ... )`, each line is the
-- previous one plus one.
def IORING_OP_NOP : Nat := 0
def IORING_OP_READV : Nat := IORING_OP_NOP + 1
def IORING_OP_WRITEV : Nat := IORING_OP_READV + 1
def IORING_OP_FSYNC : Nat := IORING_OP_WRITEV + 1
def IORING_OP_READ_FIXED : Nat := IORING_OP_FSYNC + 1
def IORING_OP_WRITE_FIXED : Nat := IORING_OP_READ_FIXED + 1
def IORING_OP_POLL_ADD : Nat := IORING_OP_WRITE_FIXED + 1
def IORING_OP_POLL_REMOVE : Nat := IORING_OP_POLL_ADD + 1
def IORING_OP_SYNC_FILE_RANGE : Nat := IORING_OP_POLL_REMOVE + 1
def IORING_OP_SENDMSG : Nat := IORING_OP_SYNC_FILE_RANGE + 1
def IORING_OP_RECVMSG : Nat := IORING_OP_SENDMSG + 1
def IORING_OP_TIMEOUT : Nat := IORING_OP_RECVMSG + 1
def IORING_OP_TIMEOUT_REMOVE : Nat := IORING_OP_TIMEOUT + 1
def IORING_OP_ACCEPT : Nat := IORING_OP_TIMEOUT_REMOVE + 1
def IORING_OP_ASYNC_CANCEL : Nat := IORING_OP_ACCEPT + 1
def IORING_OP_LINK_TIMEOUT : Nat := IORING_OP_ASYNC_CANCEL + 1
def IORING_OP_CONNECT : Nat := IORING_OP_LINK_TIMEOUT + 1
def IORING_OP_FALLOCATE : Nat := IORING_OP_CONNECT + 1
def IORING_OP_OPENAT : Nat := IORING_OP_FALLOCATE + 1
def IORING_OP_CLOSE : Nat := IORING_OP_OPENAT + 1
def IORING_OP_FILES_UPDATE : Nat := IORING_OP_CLOSE + 1
def IORING_OP_STATX : Nat := IORING_OP_FILES_UPDATE + 1
def IORING_OP_READ : Nat := IORING_OP_STATX + 1
def IORING_OP_WRITE : Nat := IORING_OP_READ + 1
def IORING_OP_FADVISE : Nat := IORING_OP_WRITE + 1
def IORING_OP_MADVISE : Nat := IORING_OP_FADVISE + 1
def IORING_OP_SEND : Nat := IORING_OP_MADVISE + 1
def IORING_OP_RECV : Nat := IORING_OP_SEND + 1
def IORING_OP_OPENAT2 : Nat := IORING_OP_RECV + 1
def IORING_OP_EPOLL_CTL : Nat := IORING_OP_OPENAT2 + 1
def IORING_OP_SPLICE : Nat := IORING_OP_EPOLL_CTL + 1
def IORING_OP_PROVIDE_BUFFERS : Nat := IORING_OP_SPLICE + 1
def IORING_OP_REMOVE_BUFFERS : Nat := IORING_OP_PROVIDE_BUFFERS + 1
def IORING_OP_TEE : Nat := IORING_OP_REMOVE_BUFFERS + 1
def IORING_OP_SHUTDOWN : Nat := IORING_OP_TEE + 1
def IORING_OP_RENAMEAT : Nat := IORING_OP_SHUTDOWN + 1
def IORING_OP_UNLINKAT : Nat := IORING_OP_RENAMEAT + 1
def IORING_OP_MKDIRAT : Nat := IORING_OP_UNLINKAT + 1
def IORING_OP_SYMLINKAT : Nat := IORING_OP_MKDIRAT + 1
def IORING_OP_LINKAT : Nat := IORING_OP_SYMLINKAT + 1
def IORING_OP_LAST : Nat := IORING_OP_LINKAT + 1

/-- The opcode constants in declaration order, `IORING_OP_NOP` up to and
including `IORING_OP_LAST`. -/
def opcodeConsts : List Nat :=
  [IORING_OP_NOP, IORING_OP_READV, IORING_OP_WRITEV, IORING_OP_FSYNC,
   IORING_OP_READ_FIXED, IORING_OP_WRITE_FIXED, IORING_OP_POLL_ADD,
   IORING_OP_POLL_REMOVE, IORING_OP_SYNC_FILE_RANGE, IORING_OP_SENDMSG,
   IORING_OP_RECVMSG, IORING_OP_TIMEOUT, IORING_OP_TIMEOUT_REMOVE,
   IORING_OP_ACCEPT, IORING_OP_ASYNC_CANCEL, IORING_OP_LINK_TIMEOUT,
   IORING_OP_CONNECT, IORING_OP_FALLOCATE, IORING_OP_OPENAT, IORING_OP_CLOSE,
   IORING_OP_FILES_UPDATE, IORING_OP_STATX, IORING_OP_READ, IORING_OP_WRITE,
   IORING_OP_FADVISE, IORING_OP_MADVISE, IORING_OP_SEND, IORING_OP_RECV,
   IORING_OP_OPENAT2, IORING_OP_EPOLL_CTL, IORING_OP_SPLICE,
   IORING_OP_PROVIDE_BUFFERS, IORING_OP_REMOVE_BUFFERS, IORING_OP_TEE,
   IORING_OP_SHUTDOWN, IORING_OP_RENAMEAT, IORING_OP_UNLINKAT,
   IORING_OP_MKDIRAT, IORING_OP_SYMLINKAT, IORING_OP_LINKAT, IORING_OP_LAST]

/-- Constant `IORING_FSYNC_DATASYNC uint32 = 1 << 0`. -/
def IORING_FSYNC_DATASYNC : Nat := 1 <<< 0

/-- Constant `IORING_TIMEOUT_ABS uint32 = 1 << 0`. -/
def IORING_TIMEOUT_ABS : Nat := 1 <<< 0

/-- Constant `sqeSize uintptr = 64`. -/
def sqeSize : Nat := 64

/-- Constant `cqeSize uintptr = 16`. -/
def cqeSize : Nat := 16

/-- Variable `empty [sqeSize]byte`: a zero-valued byte array. -/
def empty : List Nat := List.replicate sqeSize 0

/-! ## Submission and completion entries -/

/-- Struct `SQEntry` of `core.go`, fields in declaration order. -/
structure SQEntry where
  opcode : Nat
  flags : Nat
  ioprio : Nat
  fd : Int
  offset : Nat
  addr : Nat
  len : Nat
  opcodeFlags : Nat
  userData : Nat
  bufIG : Nat
  personality : Nat
  spliceFdIn : Int
  pad2 : Nat × Nat
  deriving DecidableEq, Repr

/-- Struct `CQEntry` of `core.go`. -/
structure CQEntry where
  userData : Nat
  res : Int
  flags : Nat
  deriving DecidableEq, Repr

namespace SQEntry

def UserData (e : SQEntry) : Nat := e.userData

def SetOpcode (e : SQEntry) (opcode : Nat) : SQEntry := { e with opcode := opcode }

def SetFlags (e : SQEntry) (flags : Nat) : SQEntry := { e with flags := flags }

def GetFlags (e : SQEntry) : Nat := e.flags

def SetIOPrio (e : SQEntry) (ioprio : Nat) : SQEntry := { e with ioprio := ioprio }

def SetFD (e : SQEntry) (fd : Int) : SQEntry := { e with fd := fd }

def SetUserData (e : SQEntry) (ud : Nat) : SQEntry := { e with userData := ud }

def SetOffset (e : SQEntry) (off : Nat) : SQEntry := { e with offset := off }

def SetAddr (e : SQEntry) (addr : Nat) : SQEntry := { e with addr := addr }

def SetLen (e : SQEntry) (len : Nat) : SQEntry := { e with len := len }

def SetOpcodeFlags (e : SQEntry) (flags : Nat) : SQEntry := { e with opcodeFlags := flags }

def SetBufIndex (e : SQEntry) (index : Nat) : SQEntry := { e with bufIG := index }

def SetBufGroup (e : SQEntry) (group : Nat) : SQEntry := { e with bufIG := group }

def SetPersonality (e : SQEntry) (personality : Nat) : SQEntry :=
  { e with personality := personality }

def SetSpliceOffIn (e : SQEntry) (val : Nat) : SQEntry := { e with addr := val }

def SetSpliceFdIn (e : SQEntry) (val : Int) : SQEntry := { e with spliceFdIn := val }

def SetAddr2 (e : SQEntry) (addr2 : Nat) : SQEntry := { e with offset := addr2 }

end SQEntry

namespace CQEntry

def Result (e : CQEntry) : Int := e.res

def Flags (e : CQEntry) : Nat := e.flags

def UserData (e : CQEntry) : Nat := e.userData

end CQEntry

/-! ## Memory image of an entry

`Reset` views the entry through `(*[sqeSize]byte)(unsafe.Pointer(e))`.  The
image below is the one the Go compiler lays out on the 64-bit little-endian
targets the package supports: every field at the next offset that is a multiple
of its alignment, least significant byte first. -/

/-- The Go types that occur in `SQEntry` and `CQEntry`. -/
inductive GoType where
  | uint8
  | uint16
  | int32
  | uint32
  | uint64
  | array (n : Nat) (elem : GoType)
  deriving DecidableEq, Repr

namespace GoType

/-- Value of `unsafe.Sizeof` for a type. -/
def size : GoType → Nat
  | uint8 => 1
  | uint16 => 2
  | int32 => 4
  | uint32 => 4
  | uint64 => 8
  | array n t => n * size t

/-- Value of `unsafe.Alignof` for a type. -/
def align : GoType → Nat
  | uint8 => 1
  | uint16 => 2
  | int32 => 4
  | uint32 => 4
  | uint64 => 8
  | array _ t => align t

end GoType

/-- Round `o` up to the next multiple of `a`. -/
def alignUp (o a : Nat) : Nat := (o + a - 1) / a * a

/-- Offsets the compiler gives to the fields of a struct, the first field
being placed at or after `o`. -/
def fieldOffsets : List GoType → Nat → List Nat
  | [], _ => []
  | t :: ts, o => alignUp o t.align :: fieldOffsets ts (alignUp o t.align + t.size)

/-- End of the last field of a struct whose first field is placed at or
after `o`. -/
def fieldsEnd : List GoType → Nat → Nat
  | [], o => o
  | t :: ts, o => fieldsEnd ts (alignUp o t.align + t.size)

/-- Value of `unsafe.Sizeof` for a struct: the end of the last field rounded up
to the largest field alignment. -/
def structSize (ts : List GoType) : Nat :=
  alignUp (fieldsEnd ts 0) ((ts.map GoType.align).foldl max 1)

/-- Field types of `SQEntry` in declaration order: opcode, flags, ioprio, fd,
offset, addr, len, opcodeFlags, userData, bufIG, personality, spliceFdIn,
pad2. -/
def SQEntry.fieldTypes : List GoType :=
  [.uint8, .uint8, .uint16, .int32, .uint64, .uint64, .uint32, .uint32, .uint64,
   .uint16, .uint16, .int32, .array 2 .uint64]

/-- Field types of `CQEntry` in declaration order: userData, res, flags. -/
def CQEntry.fieldTypes : List GoType := [.uint64, .int32, .uint32]

/-- The `w` low bytes of `n`, least significant first. -/
def leBytes (w n : Nat) : List Nat := (List.range w).map fun i => n / 256 ^ i % 256

/-- The number whose little-endian bytes are `bs`. -/
def leValue (bs : List Nat) : Nat := bs.foldr (fun b acc => b + 256 * acc) 0

/-- Two's complement word of `w` bytes holding the signed value `x`. -/
def twosComplement (w : Nat) (x : Int) : Nat := (x % 256 ^ w).toNat

/-- Signed value of the `w`-byte two's complement word `n`. -/
def signedValue (w n : Nat) : Int :=
  if 2 * n < 256 ^ w then (n : Int) else (n : Int) - 256 ^ w

/-- The bytes of an entry as they lie in memory. -/
def SQEntry.toBytes (e : SQEntry) : List Nat :=
  leBytes 1 e.opcode ++ leBytes 1 e.flags ++ leBytes 2 e.ioprio ++
  leBytes 4 (twosComplement 4 e.fd) ++ leBytes 8 e.offset ++ leBytes 8 e.addr ++
  leBytes 4 e.len ++ leBytes 4 e.opcodeFlags ++ leBytes 8 e.userData ++
  leBytes 2 e.bufIG ++ leBytes 2 e.personality ++
  leBytes 4 (twosComplement 4 e.spliceFdIn) ++
  leBytes 8 e.pad2.1 ++ leBytes 8 e.pad2.2

/-- The unsigned value stored in the `w` bytes at offset `o` of `bs`. -/
def wordAt (bs : List Nat) (o w : Nat) : Nat := leValue ((bs.drop o).take w)

/-- The entry whose memory holds the bytes `bs`. -/
def SQEntry.ofBytes (bs : List Nat) : SQEntry :=
  { opcode := wordAt bs 0 1
    flags := wordAt bs 1 1
    ioprio := wordAt bs 2 2
    fd := signedValue 4 (wordAt bs 4 4)
    offset := wordAt bs 8 8
    addr := wordAt bs 16 8
    len := wordAt bs 24 4
    opcodeFlags := wordAt bs 28 4
    userData := wordAt bs 32 8
    bufIG := wordAt bs 40 2
    personality := wordAt bs 42 2
    spliceFdIn := signedValue 4 (wordAt bs 44 4)
    pad2 := (wordAt bs 48 8, wordAt bs 56 8) }

/-- Builtin `copy(dst, src)`: overwrite the first `min (len dst) (len src)`
elements of `dst` with those of `src`. -/
def goCopy (dst src : List Nat) : List Nat :=
  src.take (min dst.length src.length) ++ dst.drop (min dst.length src.length)

/-- Method `Reset`: copy the zero array `empty` over the memory of the entry. -/
def SQEntry.Reset (e : SQEntry) : SQEntry :=
  SQEntry.ofBytes (goCopy e.toBytes empty)

/-- The zero value of `SQEntry`. -/
def SQEntry.zero : SQEntry :=
  { opcode := 0, flags := 0, ioprio := 0, fd := 0, offset := 0, addr := 0, len := 0,
    opcodeFlags := 0, userData := 0, bufIG := 0, personality := 0, spliceFdIn := 0,
    pad2 := (0, 0) }

/-! ## Slices -/

/-- A Go slice: the address of its first element and the elements it views.
Its length is the number of elements; the slices of this development come from
literals and from `mmap`, whose capacity equals their length. -/
structure Slice (α : Type) where
  data : Nat
  elems : List α
  deriving DecidableEq, Repr

namespace Slice

/-- Builtin `len(s)`. -/
def len {α : Type} (s : Slice α) : Nat := s.elems.length

/-- Expression `&s[0]`: the address of the first element; indexing an empty
slice panics. -/
def addrOfFirst {α : Type} (s : Slice α) : Option Nat :=
  if 0 < s.len then some s.data else none

/-- Expression `s[lo:hi]` on a byte slice: panics unless
`0 ≤ lo ≤ hi ≤ cap(s)`. -/
def slice (s : Slice Nat) (lo hi : Int) : Option (Slice Nat) :=
  if 0 ≤ lo ∧ lo ≤ hi ∧ hi ≤ (s.len : Int) then
    some { data := s.data + lo.toNat
           elems := (s.elems.drop lo.toNat).take (hi - lo).toNat }
  else none

end Slice

/-- Struct `syscall.Iovec`: `Base *byte` and `Len uint64`. -/
structure Iovec where
  Base : Nat
  Len : Nat
  deriving DecidableEq, Repr

/-! ## Opcode preparers of `ops.go`

The descriptor `fd` is a `uintptr`, pointers (`base`, `pathptr`, `ts`) are
addresses.  A preparer that takes `&buf[0]` panics on an empty slice, after the
assignments that precede that expression. -/

def Nop (sqe : SQEntry) : SQEntry :=
  { sqe with opcode := IORING_OP_NOP }

def Write (sqe : SQEntry) (fd : Nat) (buf : Slice Nat) : Option SQEntry := do
  let sqe := { sqe with opcode := IORING_OP_WRITE }
  let sqe := { sqe with fd := toInt32 fd }
  let p ← buf.addrOfFirst
  let sqe := { sqe with addr := p }
  pure { sqe with len := toUint32 buf.len }

def Read (sqe : SQEntry) (fd : Nat) (buf : Slice Nat) : Option SQEntry := do
  let sqe := { sqe with opcode := IORING_OP_READ }
  let sqe := { sqe with fd := toInt32 fd }
  let p ← buf.addrOfFirst
  let sqe := { sqe with addr := p }
  pure { sqe with len := toUint32 buf.len }

def Writev (sqe : SQEntry) (fd : Nat) (iovec : Slice Iovec) (offset flags : Nat) :
    Option SQEntry := do
  let sqe := { sqe with opcode := IORING_OP_WRITEV }
  let sqe := { sqe with fd := toInt32 fd }
  let sqe := { sqe with len := toUint32 iovec.len }
  let sqe := { sqe with offset := offset }
  let sqe := { sqe with opcodeFlags := flags }
  let p ← iovec.addrOfFirst
  pure { sqe with addr := p }

def Readv (sqe : SQEntry) (fd : Nat) (iovec : Slice Iovec) (offset flags : Nat) :
    Option SQEntry := do
  let sqe := { sqe with opcode := IORING_OP_READV }
  let sqe := { sqe with fd := toInt32 fd }
  let sqe := { sqe with len := toUint32 iovec.len }
  let sqe := { sqe with offset := offset }
  let sqe := { sqe with opcodeFlags := flags }
  let p ← iovec.addrOfFirst
  pure { sqe with addr := p }

def WriteFixed (sqe : SQEntry) (fd base len offset flags bufIndex : Nat) : SQEntry :=
  let sqe := { sqe with opcode := IORING_OP_WRITE_FIXED }
  let sqe := { sqe with fd := toInt32 fd }
  let sqe := { sqe with len := toUint32 len }
  let sqe := { sqe with offset := offset }
  let sqe := { sqe with opcodeFlags := flags }
  let sqe := { sqe with addr := base }
  sqe.SetBufIndex bufIndex

def ReadFixed (sqe : SQEntry) (fd base len offset flags bufIndex : Nat) : SQEntry :=
  let sqe := { sqe with opcode := IORING_OP_READ_FIXED }
  let sqe := { sqe with fd := toInt32 fd }
  let sqe := { sqe with len := toUint32 len }
  let sqe := { sqe with offset := offset }
  let sqe := { sqe with opcodeFlags := flags }
  let sqe := { sqe with addr := base }
  sqe.SetBufIndex bufIndex

def Fsync (sqe : SQEntry) (fd : Nat) : SQEntry :=
  let sqe := { sqe with opcode := IORING_OP_FSYNC }
  { sqe with fd := toInt32 fd }

def Fdatasync (sqe : SQEntry) (fd : Nat) : SQEntry :=
  let sqe := { sqe with opcode := IORING_OP_FSYNC }
  let sqe := { sqe with fd := toInt32 fd }
  { sqe with opcodeFlags := IORING_FSYNC_DATASYNC }

def Openat (sqe : SQEntry) (dfd : Int) (pathptr flags mode : Nat) : SQEntry :=
  let sqe := { sqe with opcode := IORING_OP_OPENAT }
  let sqe := { sqe with fd := dfd }
  let sqe := { sqe with opcodeFlags := flags }
  let sqe := { sqe with addr := pathptr }
  { sqe with len := mode }

def Close (sqe : SQEntry) (fd : Nat) : SQEntry :=
  let sqe := { sqe with opcode := IORING_OP_CLOSE }
  { sqe with fd := toInt32 fd }

def Send (sqe : SQEntry) (fd : Nat) (buf : Slice Nat) (flags : Nat) : Option SQEntry := do
  let sqe := sqe.SetOpcode IORING_OP_SEND
  let sqe := sqe.SetFD (toInt32 fd)
  let p ← buf.addrOfFirst
  let sqe := sqe.SetAddr p
  let sqe := sqe.SetLen (toUint32 buf.len)
  pure (sqe.SetOpcodeFlags flags)

def Recv (sqe : SQEntry) (fd : Nat) (buf : Slice Nat) (flags : Nat) : Option SQEntry := do
  let sqe := sqe.SetOpcode IORING_OP_RECV
  let sqe := sqe.SetFD (toInt32 fd)
  let p ← buf.addrOfFirst
  let sqe := sqe.SetAddr p
  let sqe := sqe.SetLen (toUint32 buf.len)
  pure (sqe.SetOpcodeFlags flags)

def Timeout (sqe : SQEntry) (ts : Nat) (abs : Bool) (count : Nat) : SQEntry :=
  let sqe := sqe.SetFD (-1)
  let sqe := sqe.SetOpcode IORING_OP_TIMEOUT
  let sqe := sqe.SetAddr ts
  let sqe := sqe.SetLen 1
  let sqe := if abs then sqe.SetOpcodeFlags IORING_TIMEOUT_ABS else sqe
  sqe.SetOffset count

def LinkTimeout (sqe : SQEntry) (ts : Nat) (abs : Bool) : SQEntry :=
  let sqe := sqe.SetFD (-1)
  let sqe := sqe.SetOpcode IORING_OP_LINK_TIMEOUT
  let sqe := sqe.SetAddr ts
  let sqe := sqe.SetLen 1
  if abs then sqe.SetOpcodeFlags IORING_TIMEOUT_ABS else sqe

/-! ## Arena of the fixed-buffer allocator (`fixed/allocator.go`) -/

/-- Struct `allocator`: the number of buffers, the size of each and the mapped
arena.  The `reg BufferRegistry` field is used by `init` only. -/
structure allocator where
  max : Int
  bufferSize : Int
  mem : Slice Nat
  deriving DecidableEq, Repr

/-- Method `bufAt`: `start := pos * a.bufferSize` and
`a.mem[start : start+a.bufferSize]`, in `int` arithmetic. -/
def allocator.bufAt (a : allocator) (pos : Int) : Option (Slice Nat) :=
  let start := wrapInt64 (pos * a.bufferSize)
  a.mem.slice start (wrapInt64 (start + a.bufferSize))

/-- The addresses a byte slice views. -/
def Slice.covers (s : Slice Nat) (addr : Nat) : Prop :=
  s.data ≤ addr ∧ addr < s.data + s.len

instance (s : Slice Nat) (addr : Nat) : Decidable (s.covers addr) := by
  unfold Slice.covers; infer_instance

/-! ## Completion decoding (`fs/file.go`) -/

/-- A non-nil `error`: either a `syscall.Errno` with its numeric value, or an
error of another kind, identified by a tag. -/
inductive GoError where
  | errno (n : Nat)
  | other (tag : Nat)
  deriving DecidableEq, Repr

/-- Function `ioRst`.  The result of a completion is an `int32`, its negation
is taken in `int32` and converted to `syscall.Errno`, a `uintptr`. -/
def ioRst (cqe : CQEntry) (err : Option GoError) : Int × Option GoError :=
  match err with
  | some e => (0, some e)
  | none =>
    if cqe.Result < 0 then
      (0, some (GoError.errno (toUintptr (wrapInt32 (-cqe.Result)))))
    else (cqe.Result, none)

/-! ## Further constants of `core.go` -/

-- syscalls: `const ( IO_URING_SETUP uintptr = 425 + iota ... )`, the
-- expression is repeated on each line with the next value of `iota`.
def IO_URING_SETUP : Nat := 425 + 0
def IO_URING_ENTER : Nat := 425 + 1
def IO_URING_REGISTER : Nat := 425 + 2

-- submission queue entry flags: `const ( IOSQE_FIXED_FILE uint8 = 1 << iota ... )`.
def IOSQE_FIXED_FILE : Nat := 1 <<< 0
def IOSQE_IO_DRAIN : Nat := 1 <<< 1
def IOSQE_IO_LINK : Nat := 1 <<< 2
def IOSQE_IO_HARDLINK : Nat := 1 <<< 3
def IOSQE_ASYNC : Nat := 1 <<< 4
def IOSQE_BUFFER_SELECT : Nat := 1 <<< 5

/-- The per-entry flag constants in declaration order. -/
def sqeFlagConsts : List Nat :=
  [IOSQE_FIXED_FILE, IOSQE_IO_DRAIN, IOSQE_IO_LINK, IOSQE_IO_HARDLINK, IOSQE_ASYNC,
   IOSQE_BUFFER_SELECT]

/-- Bitwise OR of a set of flags, as a caller builds the argument of
`SetFlags`. -/
def orFlags (fs : List Nat) : Nat := fs.foldl (fun acc f => acc ||| f) 0

/-- Whether bit number `i` of `n` is set. -/
def bitSet (n i : Nat) : Bool := n / 2 ^ i % 2 = 1

/-! ## Further conversions -/

/-- Conversion of a signed value to `uint32`: keep the low 32 bits of its
two's complement. -/
def intToUint32 (x : Int) : Nat := (x % 2 ^ 32).toNat

/-- Conversion of a signed value to `uint64`: keep the low 64 bits of its
two's complement. -/
def toUint64 (x : Int) : Nat := (x % 2 ^ 64).toNat

/-! ## The `Accept` preparer of `ops.go` -/

/-- A pointer parameter as the callee sees it: the parameter is a variable of
its own, stored at `addr`, holding the pointer `val` the caller passed. -/
structure PtrParam where
  addr : Nat
  val : Nat
  deriving DecidableEq, Repr

/-- Function `Accept`.  Its last statement is
`sqe.SetOffset(uint64(uintptr(unsafe.Pointer(&len))))`: the address taken is
that of the parameter `len` itself. -/
def Accept (sqe : SQEntry) (fd clientAddr : Nat) (len : PtrParam) : SQEntry :=
  let sqe := sqe.SetOpcode IORING_OP_ACCEPT
  let sqe := { sqe with fd := toInt32 fd }
  let sqe := sqe.SetAddr clientAddr
  let sqe := { sqe with len := 0 }
  sqe.SetOffset len.addr

/-! ## Initialisation of the allocator (`fixed/allocator.go`) -/

/-- Errno `EINVAL`. -/
def EINVAL : Nat := 22

/-- Library function `syscall.Mmap(-1, 0, length, prot, flags)` for an anonymous
mapping: a length that is not positive is refused with `EINVAL` before the
system call is made; otherwise the outcome is the kernel's, an error or the
address of `length` zeroed bytes. -/
def Mmap (length : Int) (kernel : Except GoError Nat) : Except GoError (Slice Nat) :=
  if length ≤ 0 then Except.error (GoError.errno EINVAL)
  else
    match kernel with
    | Except.error err => Except.error err
    | Except.ok addr => Except.ok { data := addr, elems := List.replicate length.toNat 0 }

/-- What a call of `init` did: the allocator afterwards, the arguments of the
calls of `reg.RegisterBuffers` in order, and the error returned. -/
structure InitOutcome where
  alloc : allocator
  registered : List (Slice Iovec)
  ret : Option GoError

/-- Method `init`.  `kernel` is the outcome of the `mmap` system call,
`RegisterBuffers` the method of the `reg` field, `iovecAddr` the address at
which the one-element `iovec` literal is allocated. -/
def allocator.init (a : allocator) (kernel : Except GoError Nat)
    (RegisterBuffers : Slice Iovec → Option GoError) (iovecAddr : Nat) :
    Option InitOutcome :=
  let size := wrapInt64 (a.bufferSize * a.max)
  match Mmap size kernel with
  | Except.error err => some { alloc := a, registered := [], ret := some err }
  | Except.ok mem =>
    let a := { a with mem := mem }
    match mem.addrOfFirst with
    | none => none
    | some base =>
      let iovec : Slice Iovec := { data := iovecAddr, elems := [{ Base := base, Len := toUint64 size }] }
      some { alloc := a, registered := [iovec], ret := RegisterBuffers iovec }

/-! ## Filesystem facade (`fs/fs.go`, `fs/file.go`)

The event loop and the fixed-file table are collaborators of the facade.  A
method of the facade is modelled with the answers of its collaborators as an
argument and returns, next to its Go results, the calls it made to them. -/

/-- Constant `_AT_FDCWD int32 = -0x64`. -/
def _AT_FDCWD : Int := -0x64

/-- Modelled from the spec: the event loop `loop.Loop` and the fixed-file table
`fixedFiles`, which the facade calls and whose sources are not at hand.
`Syscall` is the loop's answer to a submitted entry: it hands the prepare
function a zeroed entry (spec 4.1, the returned entry is zero-initialized),
submits it and returns the completion or an error.  `register` is the table's
answer to `register(fd)`: a slot index or an error. -/
structure Env where
  Syscall : SQEntry → CQEntry × Option GoError
  register : Nat → Nat × Option GoError

/-- A call the facade makes to a collaborator. -/
inductive Call where
  | submit (sqe : SQEntry)
  | register (fd : Nat)
  | unregister (ufd : Nat)
  deriving DecidableEq, Repr

/-- Modelled from the spec: the handle `fixed.Buffer` of the fixed-buffer pool,
read through `Base()`, `Len()` and `Index()`: base pointer, length and buffer
index. -/
structure Buffer where
  Base : Nat
  Len : Nat
  Index : Nat
  deriving DecidableEq, Repr

/-- Struct `File`; `fixedFiles` records whether the pointer of that name is
non-nil.  The mutex and the loop pointer carry no data of their own. -/
structure File where
  fd : Nat
  name : String
  ufd : Nat
  flags : Nat
  fixedFiles : Bool
  deriving DecidableEq, Repr

/-- Struct `Filesystem`; `fixedFiles` records whether the pointer of that name
is non-nil. -/
structure Filesystem where
  fixedFiles : Bool
  deriving DecidableEq, Repr

/-- The error a method returns for a completion: `syscall.Errno(-cqe.Result())`
when the result is negative, nil otherwise. -/
def errnoOfResult (cqe : CQEntry) : Option GoError :=
  if cqe.Result < 0 then some (GoError.errno (toUintptr (wrapInt32 (-cqe.Result))))
  else none

namespace File

/-- Prepare function of `Close`. -/
def prepareClose (f : File) (sqe : SQEntry) : SQEntry := uring.Close sqe f.fd

/-- Prepare function of `Sync`. -/
def prepareSync (f : File) (sqe : SQEntry) : SQEntry := Fsync sqe f.fd

/-- Prepare function of `Datasync`. -/
def prepareDatasync (f : File) (sqe : SQEntry) : SQEntry := Fdatasync sqe f.fd

/-- Prepare function of `WriteAt`. -/
def prepareWriteAt (f : File) (iovec : Slice Iovec) (off : Int) (sqe : SQEntry) :
    Option SQEntry := do
  let sqe ← Writev sqe f.ufd iovec (toUint64 off) 0
  pure (sqe.SetFlags f.flags)

/-- Prepare function of `ReadAt`. -/
def prepareReadAt (f : File) (iovec : Slice Iovec) (off : Int) (sqe : SQEntry) :
    Option SQEntry := do
  let sqe ← Readv sqe f.ufd iovec (toUint64 off) 0
  pure (sqe.SetFlags f.flags)

/-- Prepare function of `WriteAtFixed`. -/
def prepareWriteAtFixed (f : File) (b : Buffer) (off : Int) (sqe : SQEntry) : SQEntry :=
  let sqe := WriteFixed sqe f.ufd b.Base b.Len (toUint64 off) 0 b.Index
  sqe.SetFlags f.flags

/-- Prepare function of `ReadAtFixed`. -/
def prepareReadAtFixed (f : File) (b : Buffer) (off : Int) (sqe : SQEntry) : SQEntry :=
  let sqe := ReadFixed sqe f.ufd b.Base b.Len (toUint64 off) 0 b.Index
  sqe.SetFlags f.flags

/-- Method `Close`: the calls made and the error returned. -/
def Close (env : Env) (f : File) : List Call × Option GoError :=
  let pre := if f.fixedFiles then [Call.unregister f.ufd] else []
  let sqe := f.prepareClose SQEntry.zero
  match env.Syscall sqe with
  | (_, some err) => (pre ++ [Call.submit sqe], some err)
  | (cqe, none) => (pre ++ [Call.submit sqe], errnoOfResult cqe)

/-- Method `Sync`. -/
def Sync (env : Env) (f : File) : List Call × Option GoError :=
  let sqe := f.prepareSync SQEntry.zero
  match env.Syscall sqe with
  | (_, some err) => ([Call.submit sqe], some err)
  | (cqe, none) => ([Call.submit sqe], errnoOfResult cqe)

/-- Method `Datasync`. -/
def Datasync (env : Env) (f : File) : List Call × Option GoError :=
  let sqe := f.prepareDatasync SQEntry.zero
  match env.Syscall sqe with
  | (_, some err) => ([Call.submit sqe], some err)
  | (cqe, none) => ([Call.submit sqe], errnoOfResult cqe)

/-- Method `WriteAt`; `iovecAddr` is the address at which the one-element
`iovec` literal is allocated. -/
def WriteAt (env : Env) (f : File) (buf : Slice Nat) (off : Int) (iovecAddr : Nat) :
    Option (List Call × (Int × Option GoError)) :=
  if buf.len = 0 then some ([], (0, none))
  else do
    let base ← buf.addrOfFirst
    let iovec : Slice Iovec := { data := iovecAddr, elems := [{ Base := base, Len := buf.len }] }
    let sqe ← f.prepareWriteAt iovec off SQEntry.zero
    pure ([Call.submit sqe], ioRst (env.Syscall sqe).1 (env.Syscall sqe).2)

/-- Method `ReadAt`. -/
def ReadAt (env : Env) (f : File) (buf : Slice Nat) (off : Int) (iovecAddr : Nat) :
    Option (List Call × (Int × Option GoError)) :=
  if buf.len = 0 then some ([], (0, none))
  else do
    let base ← buf.addrOfFirst
    let iovec : Slice Iovec := { data := iovecAddr, elems := [{ Base := base, Len := buf.len }] }
    let sqe ← f.prepareReadAt iovec off SQEntry.zero
    pure ([Call.submit sqe], ioRst (env.Syscall sqe).1 (env.Syscall sqe).2)

/-- Method `WriteAtFixed`. -/
def WriteAtFixed (env : Env) (f : File) (b : Buffer) (off : Int) :
    List Call × (Int × Option GoError) :=
  if b.Len = 0 then ([], (0, none))
  else
    let sqe := f.prepareWriteAtFixed b off SQEntry.zero
    ([Call.submit sqe], ioRst (env.Syscall sqe).1 (env.Syscall sqe).2)

/-- Method `ReadAtFixed`. -/
def ReadAtFixed (env : Env) (f : File) (b : Buffer) (off : Int) :
    List Call × (Int × Option GoError) :=
  if b.Len = 0 then ([], (0, none))
  else
    let sqe := f.prepareReadAtFixed b off SQEntry.zero
    ([Call.submit sqe], ioRst (env.Syscall sqe).1 (env.Syscall sqe).2)

end File

namespace Filesystem

/-- Prepare function of `Open`: `p0` is the pointer to the bytes of the name. -/
def prepareOpen (p0 : Nat) (flags : Int) (mode : Nat) (sqe : SQEntry) : SQEntry :=
  Openat sqe _AT_FDCWD p0 (intToUint32 flags) (toUint32 mode)

/-- What a call of `Open` did: the calls made to the collaborators, and the
file and error returned. -/
structure OpenOutcome where
  calls : List Call
  file : Option File
  err : Option GoError
  deriving DecidableEq, Repr

/-- Method `Open`.  `bytePtr` is the outcome of
`syscall.BytePtrFromString(name)`. -/
def Open (env : Env) (fsm : Filesystem) (name : String) (bytePtr : Except GoError Nat)
    (flags : Int) (mode : Nat) : OpenOutcome :=
  match bytePtr with
  | Except.error err => { calls := [], file := none, err := some err }
  | Except.ok p0 =>
    let sqe := prepareOpen p0 flags mode SQEntry.zero
    match env.Syscall sqe with
    | (_, some err) => { calls := [Call.submit sqe], file := none, err := some err }
    | (cqe, none) =>
      if cqe.Result < 0 then
        { calls := [Call.submit sqe], file := none,
          err := some (GoError.errno (toUintptr (wrapInt32 (-cqe.Result)))) }
      else
        let fd := toUintptr cqe.Result
        let f : File :=
          { fd := fd, ufd := fd, name := name, flags := 0, fixedFiles := fsm.fixedFiles }
        if fsm.fixedFiles then
          match env.register f.fd with
          | (_, some err) =>
            { calls := [Call.submit sqe, Call.register f.fd] ++ (f.Close env).1,
              file := none, err := some err }
          | (idx, none) =>
            let f := { f with ufd := idx }
            let f := { f with flags := f.flags ||| IOSQE_FIXED_FILE }
            { calls := [Call.submit sqe, Call.register f.fd], file := some f, err := none }
        else { calls := [Call.submit sqe], file := some f, err := none }

end Filesystem

/-! ## The remaining preparers of `ops.go` -/

def ReadNoBuf (sqe : SQEntry) (fd length : Nat) : SQEntry :=
  let sqe := { sqe with opcode := IORING_OP_READ }
  let sqe := { sqe with fd := toInt32 fd }
  { sqe with len := length }

def Mkdirat (sqe : SQEntry) (fd : Nat) (buf : Slice Nat) : Option SQEntry := do
  let sqe := { sqe with opcode := IORING_OP_MKDIRAT }
  let sqe := { sqe with fd := toInt32 fd }
  let p ← buf.addrOfFirst
  let sqe := { sqe with addr := p }
  pure { sqe with len := toUint32 buf.len }

/-- Function `ProvideBuf`; the elements of `clientAddr` are arrays of 1024
bytes. -/
def ProvideBuf (sqe : SQEntry) (clientAddr : Slice (List Nat))
    (bufferCount bufferSize gid : Nat) : Option SQEntry := do
  let sqe := sqe.SetOpcode IORING_OP_PROVIDE_BUFFERS
  let sqe := sqe.SetBufGroup gid
  let sqe := { sqe with fd := toInt32 bufferCount }
  let sqe := { sqe with len := bufferSize }
  let sqe := sqe.SetOffset 0
  let p ← clientAddr.addrOfFirst
  pure (sqe.SetAddr p)

def ProvideSingleBuf (sqe : SQEntry) (clientAddr bufferCount bufferSize gid offset : Nat) :
    SQEntry :=
  let sqe := sqe.SetOpcode IORING_OP_PROVIDE_BUFFERS
  let sqe := sqe.SetBufGroup gid
  let sqe := { sqe with fd := toInt32 bufferCount }
  let sqe := { sqe with len := bufferSize }
  let sqe := sqe.SetOffset offset
  sqe.SetAddr clientAddr

/-- A preparer, possibly panicking, leaves the user-data tag, the SQE flags,
ioprio, personality and spliceFdIn of the entry alone: setting the tag or the
flags before it gives the same result as setting them after it, and the five
fields of the result are those of the entry it was given. -/
def KeepsTagAndFlags (P : SQEntry → Option SQEntry) : Prop :=
  ∀ (e : SQEntry) (t f : Nat),
    P (e.SetUserData t) = (P e).map (fun r => r.SetUserData t) ∧
    P (e.SetFlags f) = (P e).map (fun r => r.SetFlags f) ∧
    (P e).map SQEntry.userData = (P e).map (fun _ => e.userData) ∧
    (P e).map SQEntry.flags = (P e).map (fun _ => e.flags) ∧
    (P e).map SQEntry.ioprio = (P e).map (fun _ => e.ioprio) ∧
    (P e).map SQEntry.personality = (P e).map (fun _ => e.personality) ∧
    (P e).map SQEntry.spliceFdIn = (P e).map (fun _ => e.spliceFdIn)

/-! ## Helper lemmas -/

theorem leBytes_length (w n : Nat) : (leBytes w n).length = w := by
  simp [leBytes]

theorem SQEntry.toBytes_length (e : SQEntry) : e.toBytes.length = sqeSize := by
  simp [SQEntry.toBytes, leBytes_length, sqeSize]

theorem empty_length : empty.length = sqeSize := by
  simp [empty]

theorem goCopy_same_length (dst src : List Nat) (h : dst.length = src.length) :
    goCopy dst src = src := by
  simp [goCopy, h]

theorem SQEntry.ofBytes_empty : SQEntry.ofBytes empty = SQEntry.zero := by
  decide

theorem SQEntry.Reset_eq_zero (e : SQEntry) : e.Reset = SQEntry.zero := by
  unfold SQEntry.Reset
  rw [goCopy_same_length _ _ (by rw [SQEntry.toBytes_length, empty_length])]
  exact SQEntry.ofBytes_empty

theorem SQEntry.toBytes_zero : SQEntry.zero.toBytes = List.replicate 64 0 := by
  decide

theorem toInt32_of_lt (fd : Nat) (h : fd < 2 ^ 31) : toInt32 fd = (fd : Int) := by
  have h1 : fd % 2 ^ 32 = fd := Nat.mod_eq_of_lt (by omega)
  unfold toInt32
  rw [h1, if_pos h]

theorem toUint32_of_lt (n : Nat) (h : n < 2 ^ 32) : toUint32 n = n := by
  unfold toUint32
  exact Nat.mod_eq_of_lt h

/-! ## The claims -/

/-- C1: whatever an entry held before, after `Reset` every field is zero
(opcode, flags, ioprio, fd, offset, addr, len, opcodeFlags, userData, bufIG,
personality, spliceFdIn and both padding words), all 64 bytes of its memory
read as zero, and `UserData` returns 0. -/
theorem Reset_zeroes_every_field (e : SQEntry) :
    e.Reset.opcode = 0 ∧ e.Reset.flags = 0 ∧ e.Reset.ioprio = 0 ∧ e.Reset.fd = 0 ∧
    e.Reset.offset = 0 ∧ e.Reset.addr = 0 ∧ e.Reset.len = 0 ∧
    e.Reset.opcodeFlags = 0 ∧ e.Reset.userData = 0 ∧ e.Reset.bufIG = 0 ∧
    e.Reset.personality = 0 ∧ e.Reset.spliceFdIn = 0 ∧ e.Reset.pad2 = (0, 0) ∧
    e.Reset.toBytes = List.replicate 64 0 ∧ e.Reset.UserData = 0 := by
  rw [SQEntry.Reset_eq_zero e]
  refine ⟨rfl, rfl, rfl, rfl, rfl, rfl, rfl, rfl, rfl, rfl, rfl, rfl, rfl, ?_, rfl⟩
  exact SQEntry.toBytes_zero

/-- C2: stale fields never leak into a new submission.  For two entries with
arbitrary prior contents and each of the preparers Nop, Read, Write, Readv,
Writev, ReadFixed, WriteFixed, Fsync, Fdatasync, Openat, Close, Send, Recv,
Timeout and LinkTimeout called with the same arguments, `Reset` followed by the
preparer gives the same result on both. -/
theorem Reset_then_preparer_forgets_prior (e1 e2 : SQEntry) (fd base len offset flags
    bufIndex pathptr mode ts count : Nat) (dfd : Int) (abs : Bool) (buf : Slice Nat)
    (iovec : Slice Iovec) :
    Nop e1.Reset = Nop e2.Reset ∧
    Read e1.Reset fd buf = Read e2.Reset fd buf ∧
    Write e1.Reset fd buf = Write e2.Reset fd buf ∧
    Readv e1.Reset fd iovec offset flags = Readv e2.Reset fd iovec offset flags ∧
    Writev e1.Reset fd iovec offset flags = Writev e2.Reset fd iovec offset flags ∧
    ReadFixed e1.Reset fd base len offset flags bufIndex =
      ReadFixed e2.Reset fd base len offset flags bufIndex ∧
    WriteFixed e1.Reset fd base len offset flags bufIndex =
      WriteFixed e2.Reset fd base len offset flags bufIndex ∧
    Fsync e1.Reset fd = Fsync e2.Reset fd ∧
    Fdatasync e1.Reset fd = Fdatasync e2.Reset fd ∧
    Openat e1.Reset dfd pathptr flags mode = Openat e2.Reset dfd pathptr flags mode ∧
    Close e1.Reset fd = Close e2.Reset fd ∧
    Send e1.Reset fd buf flags = Send e2.Reset fd buf flags ∧
    Recv e1.Reset fd buf flags = Recv e2.Reset fd buf flags ∧
    Timeout e1.Reset ts abs count = Timeout e2.Reset ts abs count ∧
    LinkTimeout e1.Reset ts abs = LinkTimeout e2.Reset ts abs := by
  rw [SQEntry.Reset_eq_zero e1, SQEntry.Reset_eq_zero e2]
  exact ⟨rfl, rfl, rfl, rfl, rfl, rfl, rfl, rfl, rfl, rfl, rfl, rfl, rfl, rfl, rfl⟩

/-- C3: for a descriptor below 2^31 and a length below 2^32, `WriteFixed` sets
opcode = IORING_OP_WRITE_FIXED = 5, fd, len, offset, opcodeFlags = flags,
addr = the base pointer and the buffer-index field = bufIndex; `ReadFixed` does
the same with opcode = IORING_OP_READ_FIXED = 4. -/
theorem WriteFixed_ReadFixed_fields (e : SQEntry) (fd base len offset flags bufIndex : Nat)
    (hfd : fd < 2 ^ 31) (hlen : len < 2 ^ 32) :
    ((WriteFixed e fd base len offset flags bufIndex).opcode = IORING_OP_WRITE_FIXED ∧
      IORING_OP_WRITE_FIXED = 5 ∧
      (WriteFixed e fd base len offset flags bufIndex).fd = (fd : Int) ∧
      (WriteFixed e fd base len offset flags bufIndex).len = len ∧
      (WriteFixed e fd base len offset flags bufIndex).offset = offset ∧
      (WriteFixed e fd base len offset flags bufIndex).opcodeFlags = flags ∧
      (WriteFixed e fd base len offset flags bufIndex).addr = base ∧
      (WriteFixed e fd base len offset flags bufIndex).bufIG = bufIndex) ∧
    ((ReadFixed e fd base len offset flags bufIndex).opcode = IORING_OP_READ_FIXED ∧
      IORING_OP_READ_FIXED = 4 ∧
      (ReadFixed e fd base len offset flags bufIndex).fd = (fd : Int) ∧
      (ReadFixed e fd base len offset flags bufIndex).len = len ∧
      (ReadFixed e fd base len offset flags bufIndex).offset = offset ∧
      (ReadFixed e fd base len offset flags bufIndex).opcodeFlags = flags ∧
      (ReadFixed e fd base len offset flags bufIndex).addr = base ∧
      (ReadFixed e fd base len offset flags bufIndex).bufIG = bufIndex) := by
  refine ⟨⟨rfl, by decide, ?_, ?_, rfl, rfl, rfl, rfl⟩, ⟨rfl, by decide, ?_, ?_, rfl, rfl, rfl, rfl⟩⟩
  · exact toInt32_of_lt fd hfd
  · exact toUint32_of_lt len hlen
  · exact toInt32_of_lt fd hfd
  · exact toUint32_of_lt len hlen

/-- Witness of C3: an entry with stale contents, descriptor 7, base address
4096, length 10, offset 512, flags 0 and buffer index 3. -/
theorem WriteFixed_ReadFixed_fields_witness :
    (7 : Nat) < 2 ^ 31 ∧ (10 : Nat) < 2 ^ 32 ∧
    (WriteFixed (SQEntry.zero.SetUserData 9) 7 4096 10 512 0 3).opcode = 5 ∧
    (WriteFixed (SQEntry.zero.SetUserData 9) 7 4096 10 512 0 3).fd = 7 ∧
    (WriteFixed (SQEntry.zero.SetUserData 9) 7 4096 10 512 0 3).len = 10 ∧
    (ReadFixed (SQEntry.zero.SetUserData 9) 7 4096 10 512 0 3).opcode = 4 ∧
    (ReadFixed (SQEntry.zero.SetUserData 9) 7 4096 10 512 0 3).bufIG = 3 := by
  have h := WriteFixed_ReadFixed_fields (SQEntry.zero.SetUserData 9) 7 4096 10 512 0 3
    (by decide) (by decide)
  obtain ⟨⟨h1, h2, h3, h4, -, -, -, -⟩, ⟨g1, g2, -, -, -, -, -, g8⟩⟩ := h
  exact ⟨by decide, by decide, h1.trans h2, h3, h4, g1.trans g2, g8⟩

theorem Writev_some (e : SQEntry) (fd : Nat) (v : Slice Iovec) (offset flags : Nat)
    (hv : 0 < v.len) :
    Writev e fd v offset flags =
      some { e with opcode := IORING_OP_WRITEV, fd := toInt32 fd, len := toUint32 v.len,
                    offset := offset, opcodeFlags := flags, addr := v.data } := by
  simp only [Writev, Slice.addrOfFirst, if_pos hv]
  rfl

theorem Readv_some (e : SQEntry) (fd : Nat) (v : Slice Iovec) (offset flags : Nat)
    (hv : 0 < v.len) :
    Readv e fd v offset flags =
      some { e with opcode := IORING_OP_READV, fd := toInt32 fd, len := toUint32 v.len,
                    offset := offset, opcodeFlags := flags, addr := v.data } := by
  simp only [Readv, Slice.addrOfFirst, if_pos hv]
  rfl

theorem Slice.len_replicate {α : Type} (p n : Nat) (x : α) :
    (Slice.mk p (List.replicate n x)).len = n :=
  List.length_replicate n x

/-- C4, as stated, fails: on an iovec slice of 2^32 elements `Writev` succeeds
and stores 0 in the len field, not the number of elements. -/
theorem Writev_len_truncates :
    (Slice.mk 4096 (List.replicate (2 ^ 32) (Iovec.mk 8192 8))).len = 2 ^ 32 ∧
    (Writev SQEntry.zero 3 (Slice.mk 4096 (List.replicate (2 ^ 32) (Iovec.mk 8192 8))) 0 0).map
      SQEntry.len = some 0 := by
  have hl := Slice.len_replicate 4096 (2 ^ 32) (Iovec.mk 8192 8)
  refine ⟨hl, ?_⟩
  rw [Writev_some _ _ _ _ _ (by rw [hl]; decide)]
  show some (toUint32 _) = some 0
  rw [hl]
  decide

/-- C4, amended: for a descriptor below 2^31 and a non-empty iovec slice `v`,
`Writev` returns an entry with opcode = IORING_OP_WRITEV = 2, fd, len = the
number of elements of `v` modulo 2^32 (the number itself when it is below
2^32), offset, opcodeFlags = flags and addr = the address of the first
element of `v`; `Readv` does the same with opcode = IORING_OP_READV = 1. -/
theorem Writev_Readv_fields (e : SQEntry) (fd : Nat) (v : Slice Iovec) (offset flags : Nat)
    (hfd : fd < 2 ^ 31) (hv : 0 < v.len) :
    (∃ w, Writev e fd v offset flags = some w ∧
      w.opcode = IORING_OP_WRITEV ∧ IORING_OP_WRITEV = 2 ∧ w.fd = (fd : Int) ∧
      w.len = v.len % 2 ^ 32 ∧ (v.len < 2 ^ 32 → w.len = v.len) ∧
      w.offset = offset ∧ w.opcodeFlags = flags ∧ w.addr = v.data) ∧
    (∃ r, Readv e fd v offset flags = some r ∧
      r.opcode = IORING_OP_READV ∧ IORING_OP_READV = 1 ∧ r.fd = (fd : Int) ∧
      r.len = v.len % 2 ^ 32 ∧ (v.len < 2 ^ 32 → r.len = v.len) ∧
      r.offset = offset ∧ r.opcodeFlags = flags ∧ r.addr = v.data) := by
  constructor
  · refine ⟨_, Writev_some e fd v offset flags hv, rfl, by decide,
      toInt32_of_lt fd hfd, rfl, fun h => toUint32_of_lt _ h, rfl, rfl, rfl⟩
  · refine ⟨_, Readv_some e fd v offset flags hv, rfl, by decide,
      toInt32_of_lt fd hfd, rfl, fun h => toUint32_of_lt _ h, rfl, rfl, rfl⟩

/-- Witness of C4: descriptor 3 and a vector of one iovec at address 4096. -/
theorem Writev_Readv_fields_witness :
    (3 : Nat) < 2 ^ 31 ∧ 0 < (Slice.mk 4096 [Iovec.mk 8192 8]).len ∧
    (Writev SQEntry.zero 3 (Slice.mk 4096 [Iovec.mk 8192 8]) 16 0).map SQEntry.len = some 1 ∧
    (Readv SQEntry.zero 3 (Slice.mk 4096 [Iovec.mk 8192 8]) 16 0).map SQEntry.addr =
      some 4096 := by
  obtain ⟨⟨w, hw, -, -, -, -, hwl, -, -, -⟩, ⟨r, hr, -, -, -, -, -, -, -, hra⟩⟩ :=
    Writev_Readv_fields SQEntry.zero 3 (Slice.mk 4096 [Iovec.mk 8192 8]) 16 0
      (by decide) (by decide)
  refine ⟨by decide, by decide, ?_, ?_⟩
  · rw [hw]; exact congrArg some (hwl (by decide))
  · rw [hr]; exact congrArg some hra

theorem wrapInt64_of_range (x : Int) (h0 : -2 ^ 63 ≤ x) (h1 : x < 2 ^ 63) :
    wrapInt64 x = x := by
  unfold wrapInt64
  omega

theorem allocator.arena_bounds (a : allocator) (pos : Int)
    (hmem : (a.mem.len : Int) = a.bufferSize * a.max)
    (h0 : 0 ≤ pos) (h1 : pos < a.max) :
    0 ≤ a.bufferSize ∧ 0 ≤ pos * a.bufferSize ∧
    pos * a.bufferSize + a.bufferSize ≤ (a.mem.len : Int) := by
  have hmax : 0 < a.max := lt_of_le_of_lt h0 h1
  have hlen : (0 : Int) ≤ (a.mem.len : Int) := Int.ofNat_nonneg _
  have hbs : 0 ≤ a.bufferSize := by
    by_contra hneg
    have : a.bufferSize * a.max < 0 := Int.mul_neg_of_neg_of_pos (not_le.mp hneg) hmax
    omega
  refine ⟨hbs, mul_nonneg h0 hbs, ?_⟩
  have h2 : (pos + 1) * a.bufferSize ≤ a.max * a.bufferSize :=
    mul_le_mul_of_nonneg_right (by omega) hbs
  rw [hmem, mul_comm a.bufferSize a.max]
  linarith

theorem allocator.bufAt_eq (a : allocator) (pos : Int)
    (hmem : (a.mem.len : Int) = a.bufferSize * a.max) (hint : a.mem.len < 2 ^ 63)
    (h0 : 0 ≤ pos) (h1 : pos < a.max) :
    a.bufAt pos = some
      { data := a.mem.data + (pos * a.bufferSize).toNat
        elems := (a.mem.elems.drop (pos * a.bufferSize).toNat).take a.bufferSize.toNat } := by
  obtain ⟨hbs, hs, he⟩ := a.arena_bounds pos hmem h0 h1
  unfold allocator.bufAt
  generalize pos * a.bufferSize = P at hs he
  have w1 : wrapInt64 P = P := wrapInt64_of_range P (by omega) (by omega)
  simp only [w1]
  have w2 : wrapInt64 (P + a.bufferSize) = P + a.bufferSize :=
    wrapInt64_of_range _ (by omega) (by omega)
  rw [w2]
  unfold Slice.slice
  rw [if_pos ⟨hs, by omega, he⟩]
  have : P + a.bufferSize - P = a.bufferSize := by omega
  rw [this]

theorem allocator.bufAt_data_of_some (a : allocator) (pos : Int) (s : Slice Nat)
    (h : a.bufAt pos = some s) :
    s.data = a.mem.data + (wrapInt64 (pos * a.bufferSize)).toNat := by
  unfold allocator.bufAt Slice.slice at h
  simp only at h
  split at h
  · injection h with h
    rw [← h]
  · exact absurd h (by simp)

theorem allocator.bufAt_covers (a : allocator) (pos : Int) (s : Slice Nat)
    (hmem : (a.mem.len : Int) = a.bufferSize * a.max) (hint : a.mem.len < 2 ^ 63)
    (h0 : 0 ≤ pos) (h1 : pos < a.max) (hs : a.bufAt pos = some s) (addr : Nat) :
    s.covers addr ↔
      (a.mem.data : Int) + pos * a.bufferSize ≤ addr ∧
      (addr : Int) < a.mem.data + pos * a.bufferSize + a.bufferSize := by
  obtain ⟨hbs, hp, he⟩ := a.arena_bounds pos hmem h0 h1
  rw [a.bufAt_eq pos hmem hint h0 h1] at hs
  injection hs with hs
  subst hs
  unfold Slice.covers
  simp only [Slice.len, List.length_take, List.length_drop] at he ⊢
  generalize pos * a.bufferSize = P at hp he
  omega

/-- C5: for an allocator whose arena has length bufferSize × max (a Go slice,
so the length is an `int`) and a position 0 ≤ pos < max, `bufAt` does not
fail; the slice it returns starts pos × bufferSize bytes after the arena base
and holds exactly the bufferSize bytes of the arena at offsets
[pos·bufferSize, (pos+1)·bufferSize).  The start offset is a function of pos
and bufferSize alone: any allocator with the same bufferSize that returns a
slice for pos returns it at the same offset from its arena base. -/
theorem bufAt_slice_of_arena (a : allocator) (pos : Int)
    (hmem : (a.mem.len : Int) = a.bufferSize * a.max) (hint : a.mem.len < 2 ^ 63)
    (h0 : 0 ≤ pos) (h1 : pos < a.max) :
    ∃ s, a.bufAt pos = some s ∧
      (s.data : Int) = a.mem.data + pos * a.bufferSize ∧
      (s.len : Int) = a.bufferSize ∧
      s.elems = (a.mem.elems.drop (pos * a.bufferSize).toNat).take a.bufferSize.toNat ∧
      (∀ k : Nat, (k : Int) < a.bufferSize →
        (pos * a.bufferSize).toNat + k < a.mem.len ∧
        s.elems[k]? = a.mem.elems[(pos * a.bufferSize).toNat + k]?) ∧
      (∀ (b : allocator) (t : Slice Nat), b.bufferSize = a.bufferSize →
        b.bufAt pos = some t → t.data - b.mem.data = s.data - a.mem.data) := by
  obtain ⟨hbs, hp, he⟩ := a.arena_bounds pos hmem h0 h1
  refine ⟨_, a.bufAt_eq pos hmem hint h0 h1, ?_, ?_, rfl, ?_, ?_⟩
  · simp only [Nat.cast_add, Int.toNat_of_nonneg hp]
  · simp only [Slice.len, List.length_take, List.length_drop] at he ⊢
    generalize pos * a.bufferSize = P at hp he
    omega
  · intro k hk
    have hk2 : k < a.bufferSize.toNat := by omega
    constructor
    · simp only [Slice.len] at he ⊢
      generalize pos * a.bufferSize = P at hp he
      omega
    · simp only
      rw [List.getElem?_take_of_lt hk2, List.getElem?_drop]
  · intro b t hb ht
    rw [b.bufAt_data_of_some pos t ht, hb]
    have w1 : wrapInt64 (pos * a.bufferSize) = pos * a.bufferSize := by
      generalize pos * a.bufferSize = P at hp he
      exact wrapInt64_of_range P (by omega) (by omega)
    rw [w1]
    simp

/-- Witness of C5: an arena of 3 buffers of 2 bytes at address 4096; the
buffer at position 1 starts at 4098 and holds the third and fourth byte. -/
theorem bufAt_slice_of_arena_witness :
    ∃ s, (allocator.mk 3 2 (Slice.mk 4096 [10, 11, 12, 13, 14, 15])).bufAt 1 = some s ∧
      (s.data : Int) = 4098 ∧ s.elems = [12, 13] := by
  obtain ⟨s, hs, hd, -, he, -, -⟩ :=
    bufAt_slice_of_arena (allocator.mk 3 2 (Slice.mk 4096 [10, 11, 12, 13, 14, 15])) 1
      (by decide) (by decide) (by decide) (by decide)
  exact ⟨s, hs, hd, he⟩

theorem allocator.slot_unique (bs k i j : Int) (hbs : 0 ≤ bs)
    (hi0 : i * bs ≤ k) (hi1 : k < i * bs + bs) (hj0 : j * bs ≤ k) (hj1 : k < j * bs + bs) :
    i = j := by
  have key : ∀ x y : Int, x * bs ≤ k → k < y * bs + bs → x ≤ y := by
    intro x y hx hy
    by_contra hlt
    have h2 : (y + 1) * bs ≤ x * bs := mul_le_mul_of_nonneg_right (by omega) hbs
    linarith
  have h1 := key i j hi0 hj1
  have h2 := key j i hj0 hi1
  omega

/-- C6: for an allocator with bufferSize > 0 whose arena has length
bufferSize × max, the slices `bufAt i` and `bufAt j` for distinct positions
i ≠ j in [0, max) share no address, every slice lies inside the arena, and
every address of the arena lies in the slice of exactly one position of
[0, max). -/
theorem bufAt_slices_partition_arena (a : allocator) (hbs : 0 < a.bufferSize)
    (hmem : (a.mem.len : Int) = a.bufferSize * a.max) (hint : a.mem.len < 2 ^ 63) :
    (∀ (i j : Int) (si sj : Slice Nat), 0 ≤ i → i < a.max → 0 ≤ j → j < a.max → i ≠ j →
      a.bufAt i = some si → a.bufAt j = some sj →
      ∀ addr, ¬ (si.covers addr ∧ sj.covers addr)) ∧
    (∀ (i : Int) (si : Slice Nat), 0 ≤ i → i < a.max → a.bufAt i = some si →
      ∀ addr, si.covers addr → a.mem.covers addr) ∧
    (∀ addr, a.mem.covers addr →
      ∃! i : Int, 0 ≤ i ∧ i < a.max ∧ ∃ s, a.bufAt i = some s ∧ s.covers addr) := by
  refine ⟨?_, ?_, ?_⟩
  · intro i j si sj hi0 hi1 hj0 hj1 hij hsi hsj addr hc
    rw [a.bufAt_covers i si hmem hint hi0 hi1 hsi addr,
      a.bufAt_covers j sj hmem hint hj0 hj1 hsj addr] at hc
    obtain ⟨⟨a1, a2⟩, ⟨b1, b2⟩⟩ := hc
    exact hij (allocator.slot_unique a.bufferSize ((addr : Int) - a.mem.data) i j
      (le_of_lt hbs) (by linarith) (by linarith) (by linarith) (by linarith))
  · intro i si hi0 hi1 hsi addr hc
    rw [a.bufAt_covers i si hmem hint hi0 hi1 hsi addr] at hc
    obtain ⟨-, hp, he⟩ := a.arena_bounds i hmem hi0 hi1
    unfold Slice.covers
    generalize i * a.bufferSize = P at hc hp he
    omega
  · intro addr hc
    unfold Slice.covers at hc
    obtain ⟨c1, c2⟩ := hc
    have hk0 : (0 : Int) ≤ (addr : Int) - a.mem.data := by omega
    have hk1 : (addr : Int) - a.mem.data < a.bufferSize * a.max := by omega
    generalize hk : (addr : Int) - a.mem.data = k at hk0 hk1
    have hq0 : 0 ≤ k / a.bufferSize := Int.ediv_nonneg hk0 (le_of_lt hbs)
    have hq1 : k / a.bufferSize < a.max :=
      Int.ediv_lt_of_lt_mul hbs (by rw [mul_comm]; exact hk1)
    have hdm : a.bufferSize * (k / a.bufferSize) + k % a.bufferSize = k :=
      Int.ediv_add_emod k a.bufferSize
    have hr0 : 0 ≤ k % a.bufferSize := Int.emod_nonneg k (ne_of_gt hbs)
    have hr1 : k % a.bufferSize < a.bufferSize := Int.emod_lt_of_pos k hbs
    have hlo : k / a.bufferSize * a.bufferSize ≤ k := by
      rw [mul_comm]; linarith
    have hhi : k < k / a.bufferSize * a.bufferSize + a.bufferSize := by
      rw [mul_comm]; linarith
    refine ⟨k / a.bufferSize, ⟨hq0, hq1, _, a.bufAt_eq _ hmem hint hq0 hq1, ?_⟩, ?_⟩
    · rw [a.bufAt_covers _ _ hmem hint hq0 hq1 (a.bufAt_eq _ hmem hint hq0 hq1) addr]
      constructor <;> linarith
    · rintro j ⟨hj0, hj1, s, hs, hcov⟩
      rw [a.bufAt_covers j s hmem hint hj0 hj1 hs addr] at hcov
      obtain ⟨b1, b2⟩ := hcov
      exact allocator.slot_unique a.bufferSize k j _ (le_of_lt hbs)
        (by linarith) (by linarith) hlo hhi

/-- Witness of C6: in an arena of 3 buffers of 2 bytes at address 4096 the
address 4099 lies in the slice of exactly one position. -/
theorem bufAt_slices_partition_arena_witness :
    ∃! i : Int, 0 ≤ i ∧ i < 3 ∧
      ∃ s, (allocator.mk 3 2 (Slice.mk 4096 [10, 11, 12, 13, 14, 15])).bufAt i = some s ∧
        s.covers 4099 :=
  (bufAt_slices_partition_arena (allocator.mk 3 2 (Slice.mk 4096 [10, 11, 12, 13, 14, 15]))
    (by decide) (by decide) (by decide)).2.2 4099 (by decide)

theorem wrapInt32_neg_of_small (r : Int) (h0 : r < 0) (h1 : -2 ^ 31 < r) :
    toUintptr (wrapInt32 (-r)) = (-r).toNat := by
  unfold toUintptr wrapInt32
  have e1 : (-r + 2 ^ 31) % 2 ^ 32 - 2 ^ 31 = -r := by omega
  rw [e1]
  have e2 : -r % 2 ^ 64 = -r := by omega
  rw [e2]

/-- C7, as stated, fails: for the result −2^31 the 32-bit negation wraps, and
the errno `ioRst` returns is 2^64 − 2^31, not the magnitude 2^31. -/
theorem ioRst_min_result_errno :
    (CQEntry.mk 0 (-2147483648) 0).Result < 0 ∧
    ioRst (CQEntry.mk 0 (-2147483648) 0) none =
      (0, some (GoError.errno 18446744071562067968)) ∧
    ioRst (CQEntry.mk 0 (-2147483648) 0) none ≠
      (0, some (GoError.errno (CQEntry.mk 0 (-2147483648) 0).Result.natAbs)) := by
  refine ⟨by decide, by decide, by decide⟩

/-- C7, amended: `ioRst(cqe, err)` returns (0, err) when err is non-nil;
otherwise, when the result r of cqe is negative and above −2^31, it returns
count 0 and the errno of value −r; otherwise, when r is not negative, it returns
(r, nil).  The returned error is non-nil exactly when err is non-nil or
r < 0. -/
theorem ioRst_spec (cqe : CQEntry) (err : Option GoError) :
    (∀ e, err = some e → ioRst cqe err = (0, some e)) ∧
    (err = none → cqe.Result < 0 → -2 ^ 31 < cqe.Result →
      ioRst cqe err = (0, some (GoError.errno (-cqe.Result).toNat)) ∧
      (((-cqe.Result).toNat : Nat) : Int) = -cqe.Result) ∧
    (err = none → 0 ≤ cqe.Result → ioRst cqe err = (cqe.Result, none)) ∧
    ((ioRst cqe err).2 ≠ none ↔ (err ≠ none ∨ cqe.Result < 0)) := by
  refine ⟨?_, ?_, ?_, ?_⟩
  · intro e he
    subst he
    rfl
  · intro he h0 h1
    subst he
    constructor
    · simp only [ioRst, if_pos h0]
      rw [wrapInt32_neg_of_small _ h0 h1]
    · omega
  · intro he h0
    subst he
    simp only [ioRst, if_neg (not_lt.mpr h0)]
  · cases err with
    | some e => simp [ioRst]
    | none =>
      by_cases h : cqe.Result < 0
      · simp [ioRst, h]
      · simp [ioRst, h]

/-- Witness of C7: a completion with result −2 (ENOENT) and no error from the
loop decodes to count 0 and errno 2. -/
theorem ioRst_spec_witness :
    (CQEntry.mk 1 (-2) 0).Result < 0 ∧ -2 ^ 31 < (CQEntry.mk 1 (-2) 0).Result ∧
    ioRst (CQEntry.mk 1 (-2) 0) none = (0, some (GoError.errno 2)) :=
  ⟨by decide, by decide,
    ((ioRst_spec (CQEntry.mk 1 (-2) 0) none).2.1 rfl (by decide) (by decide)).1⟩

/-- C8: the `SQEntry` fields in declaration order have byte widths 1, 1, 2, 4,
8, 8, 4, 4, 8, 2, 2, 4, 16; the offset the compiler gives each field is the sum
of the widths before it and a multiple of the field's alignment, so no padding is
inserted; the widths sum to sqeSize = 64, which is the size of the struct and of
its memory image; the `CQEntry` widths 8, 4, 4 sum to cqeSize = 16. -/
theorem SQEntry_CQEntry_layout :
    SQEntry.fieldTypes.map GoType.size = [1, 1, 2, 4, 8, 8, 4, 4, 8, 2, 2, 4, 16] ∧
    fieldOffsets SQEntry.fieldTypes 0 = [0, 1, 2, 4, 8, 16, 24, 28, 32, 40, 42, 44, 48] ∧
    (∀ i : Fin 13, (fieldOffsets SQEntry.fieldTypes 0)[i]! =
      ((SQEntry.fieldTypes.map GoType.size).take i).sum) ∧
    (∀ i : Fin 13, (fieldOffsets SQEntry.fieldTypes 0)[i]! %
      (SQEntry.fieldTypes.map GoType.align)[i]! = 0) ∧
    (SQEntry.fieldTypes.map GoType.size).sum = sqeSize ∧ sqeSize = 64 ∧
    structSize SQEntry.fieldTypes = sqeSize ∧
    (∀ e : SQEntry, e.toBytes.length = sqeSize) ∧
    CQEntry.fieldTypes.map GoType.size = [8, 4, 4] ∧
    (CQEntry.fieldTypes.map GoType.size).sum = cqeSize ∧ cqeSize = 16 ∧
    structSize CQEntry.fieldTypes = cqeSize := by
  refine ⟨by decide, by decide, by decide, by decide, by decide, by decide, by decide,
    SQEntry.toBytes_length, by decide, by decide, by decide, by decide⟩

/-- C9: the opcode constants are the consecutive integers from
IORING_OP_NOP = 0 to IORING_OP_LINKAT = 39, with IORING_OP_LAST = 40; they are
pairwise distinct, and READV = 1, WRITEV = 2, FSYNC = 3, READ_FIXED = 4,
WRITE_FIXED = 5, TIMEOUT = 11, ACCEPT = 13, ASYNC_CANCEL = 14,
LINK_TIMEOUT = 15, OPENAT = 18, CLOSE = 19, READ = 22, WRITE = 23, SEND = 26,
RECV = 27, PROVIDE_BUFFERS = 31, MKDIRAT = 37. -/
theorem opcode_constants :
    opcodeConsts = List.range 41 ∧ opcodeConsts.Nodup ∧
    IORING_OP_NOP = 0 ∧ IORING_OP_LINKAT = 39 ∧ IORING_OP_LAST = 40 ∧
    IORING_OP_READV = 1 ∧ IORING_OP_WRITEV = 2 ∧ IORING_OP_FSYNC = 3 ∧
    IORING_OP_READ_FIXED = 4 ∧ IORING_OP_WRITE_FIXED = 5 ∧ IORING_OP_TIMEOUT = 11 ∧
    IORING_OP_ACCEPT = 13 ∧ IORING_OP_ASYNC_CANCEL = 14 ∧ IORING_OP_LINK_TIMEOUT = 15 ∧
    IORING_OP_OPENAT = 18 ∧ IORING_OP_CLOSE = 19 ∧ IORING_OP_READ = 22 ∧
    IORING_OP_WRITE = 23 ∧ IORING_OP_SEND = 26 ∧ IORING_OP_RECV = 27 ∧
    IORING_OP_PROVIDE_BUFFERS = 31 ∧ IORING_OP_MKDIRAT = 37 := by
  refine ⟨by decide, by decide, ?_⟩
  decide

/-- C10: the setters of a union pair write the same storage.  `SetAddr2 v`
yields the same entry as `SetOffset v`, `SetSpliceOffIn v` the same as
`SetAddr v`, `SetBufGroup v` the same as `SetBufIndex v`; when both setters of
a pair are applied, in either order, the entry is the one the later call alone
produces and the shared field holds the later value. -/
theorem union_setters_share_storage (e : SQEntry) (v w : Nat) :
    e.SetAddr2 v = e.SetOffset v ∧
    e.SetSpliceOffIn v = e.SetAddr v ∧
    e.SetBufGroup v = e.SetBufIndex v ∧
    ((e.SetOffset v).SetAddr2 w = e.SetAddr2 w ∧ ((e.SetOffset v).SetAddr2 w).offset = w ∧
      (e.SetAddr2 v).SetOffset w = e.SetOffset w ∧ ((e.SetAddr2 v).SetOffset w).offset = w) ∧
    ((e.SetAddr v).SetSpliceOffIn w = e.SetSpliceOffIn w ∧
      ((e.SetAddr v).SetSpliceOffIn w).addr = w ∧
      (e.SetSpliceOffIn v).SetAddr w = e.SetAddr w ∧
      ((e.SetSpliceOffIn v).SetAddr w).addr = w) ∧
    ((e.SetBufIndex v).SetBufGroup w = e.SetBufGroup w ∧
      ((e.SetBufIndex v).SetBufGroup w).bufIG = w ∧
      (e.SetBufGroup v).SetBufIndex w = e.SetBufIndex w ∧
      ((e.SetBufGroup v).SetBufIndex w).bufIG = w) :=
  ⟨rfl, rfl, rfl, ⟨rfl, rfl, rfl, rfl⟩, ⟨rfl, rfl, rfl, rfl⟩, ⟨rfl, rfl, rfl, rfl⟩⟩

/-- C11: on a zeroed entry and for a descriptor below 2^31, `Fsync` yields an
entry with opcode = IORING_OP_FSYNC = 3, fd = fd and opcode flags 0 (every other
field zero); `Fdatasync` yields the same entry except that the opcode flags are
IORING_FSYNC_DATASYNC, which is bit 0, value 1. -/
theorem Fsync_Fdatasync_fields (e : SQEntry) (fd : Nat) (hfd : fd < 2 ^ 31) :
    (Fsync e.Reset fd).opcode = IORING_OP_FSYNC ∧ IORING_OP_FSYNC = 3 ∧
    (Fsync e.Reset fd).fd = (fd : Int) ∧ (Fsync e.Reset fd).opcodeFlags = 0 ∧
    Fsync e.Reset fd = { SQEntry.zero with opcode := 3, fd := (fd : Int) } ∧
    Fdatasync e.Reset fd = { Fsync e.Reset fd with opcodeFlags := IORING_FSYNC_DATASYNC } ∧
    IORING_FSYNC_DATASYNC = 2 ^ 0 ∧ IORING_FSYNC_DATASYNC = 1 := by
  rw [SQEntry.Reset_eq_zero e]
  have h := toInt32_of_lt fd hfd
  refine ⟨rfl, by decide, h, rfl, ?_, rfl, by decide, by decide⟩
  simp only [Fsync, h]
  rfl

/-- Witness of C11: descriptor 7 on an entry that held stale opcode flags. -/
theorem Fsync_Fdatasync_fields_witness :
    (7 : Nat) < 2 ^ 31 ∧
    Fsync (SQEntry.zero.SetOpcodeFlags 5).Reset 7 =
      { SQEntry.zero with opcode := 3, fd := 7 } ∧
    Fdatasync (SQEntry.zero.SetOpcodeFlags 5).Reset 7 =
      { Fsync (SQEntry.zero.SetOpcodeFlags 5).Reset 7 with
        opcodeFlags := IORING_FSYNC_DATASYNC } :=
  ⟨by decide,
    (Fsync_Fdatasync_fields (SQEntry.zero.SetOpcodeFlags 5) 7 (by decide)).2.2.2.2.1,
    (Fsync_Fdatasync_fields (SQEntry.zero.SetOpcodeFlags 5) 7 (by decide)).2.2.2.2.2.1⟩

/-- C12: for every entry, timespec pointer ts, boolean abs and count, `Timeout`
sets opcode = IORING_OP_TIMEOUT = 11, fd = −1, addr = ts, len = 1 and
offset = count; when the entry was zeroed beforehand the resulting opcode flags
are IORING_TIMEOUT_ABS if abs is true and 0 if abs is false. -/
theorem Timeout_fields (e : SQEntry) (ts count : Nat) (abs : Bool) :
    (Timeout e ts abs count).opcode = IORING_OP_TIMEOUT ∧ IORING_OP_TIMEOUT = 11 ∧
    (Timeout e ts abs count).fd = -1 ∧
    (Timeout e ts abs count).addr = ts ∧
    (Timeout e ts abs count).len = 1 ∧
    (Timeout e ts abs count).offset = count ∧
    (Timeout e.Reset ts abs count).opcodeFlags = (if abs then IORING_TIMEOUT_ABS else 0) := by
  rw [SQEntry.Reset_eq_zero e]
  cases abs
  · exact ⟨rfl, by decide, rfl, rfl, rfl, rfl, rfl⟩
  · exact ⟨rfl, by decide, rfl, rfl, rfl, rfl, rfl⟩

/-- C13, the code at a failing input: `Accept` called with descriptor 3, the
sockaddr buffer at 4096 and the caller's socklen pointer 8192, the parameter
`len` being stored at 49152.  Opcode, fd and addr are as claimed, but the offset
field holds 49152, the address of the parameter, not the caller's pointer; for
every call the offset field is the address of the parameter. -/
theorem Accept_stores_address_of_parameter :
    (Accept SQEntry.zero 3 4096 (PtrParam.mk 49152 8192)).opcode = IORING_OP_ACCEPT ∧
    IORING_OP_ACCEPT = 13 ∧
    (Accept SQEntry.zero 3 4096 (PtrParam.mk 49152 8192)).fd = 3 ∧
    (Accept SQEntry.zero 3 4096 (PtrParam.mk 49152 8192)).addr = 4096 ∧
    (Accept SQEntry.zero 3 4096 (PtrParam.mk 49152 8192)).offset = 49152 ∧
    (Accept SQEntry.zero 3 4096 (PtrParam.mk 49152 8192)).offset ≠
      (PtrParam.mk 49152 8192).val ∧
    (∀ (e : SQEntry) (fd clientAddr : Nat) (len : PtrParam),
      (Accept e fd clientAddr len).offset = len.addr) :=
  ⟨rfl, by decide, by decide, rfl, rfl, by decide, fun _ _ _ _ => rfl⟩

/-- C14: for every entry, directory descriptor dfd, path pointer, open flags and
mode, `Openat` sets opcode = IORING_OP_OPENAT = 18, fd = dfd, addr = the path
pointer, opcodeFlags = the open flags and len = mode; and the entry that
`Filesystem.Open` prepares and submits first is `Openat` on a zeroed entry with
dfd = _AT_FDCWD = −100, the pointer to the bytes of the name, and the flags and
mode of the caller reduced to 32 bits. -/
theorem Openat_fields (e : SQEntry) (dfd : Int) (pathptr flags mode : Nat) (env : Env)
    (fsm : Filesystem) (name : String) (p0 : Nat) (oflags : Int) (omode : Nat) :
    (Openat e dfd pathptr flags mode).opcode = IORING_OP_OPENAT ∧ IORING_OP_OPENAT = 18 ∧
    (Openat e dfd pathptr flags mode).fd = dfd ∧
    (Openat e dfd pathptr flags mode).addr = pathptr ∧
    (Openat e dfd pathptr flags mode).opcodeFlags = flags ∧
    (Openat e dfd pathptr flags mode).len = mode ∧
    _AT_FDCWD = -100 ∧
    Filesystem.prepareOpen p0 oflags omode e =
      Openat e (-100) p0 (oflags % 2 ^ 32).toNat (omode % 2 ^ 32) ∧
    (fsm.Open env name (Except.ok p0) oflags omode).calls.head? =
      some (Call.submit (Openat SQEntry.zero (-100) p0 (oflags % 2 ^ 32).toNat
        (omode % 2 ^ 32))) := by
  refine ⟨rfl, by decide, rfl, rfl, rfl, rfl, by decide, rfl, ?_⟩
  have hp : Filesystem.prepareOpen p0 oflags omode SQEntry.zero =
      Openat SQEntry.zero (-100) p0 (oflags % 2 ^ 32).toNat (omode % 2 ^ 32) := rfl
  unfold Filesystem.Open
  simp only [hp]
  repeat' split
  all_goals rfl

theorem toUintptr_of_nonneg (r : Int) (h0 : 0 ≤ r) (h1 : r < 2 ^ 31) :
    ((toUintptr r : Nat) : Int) = r ∧ toUintptr r < 2 ^ 31 := by
  unfold toUintptr
  have e : r % 2 ^ 64 = r := by omega
  rw [e]
  omega

theorem Filesystem.Open_eq (env : Env) (fsm : Filesystem) (name : String) (p0 : Nat)
    (flags : Int) (mode : Nat) (cqe : CQEntry)
    (hs : env.Syscall (Filesystem.prepareOpen p0 flags mode SQEntry.zero) = (cqe, none)) :
    fsm.Open env name (Except.ok p0) flags mode =
      if cqe.Result < 0 then
        { calls := [Call.submit (Filesystem.prepareOpen p0 flags mode SQEntry.zero)],
          file := none,
          err := some (GoError.errno (toUintptr (wrapInt32 (-cqe.Result)))) }
      else if fsm.fixedFiles then
        match env.register (toUintptr cqe.Result) with
        | (_, some err) =>
          { calls := [Call.submit (Filesystem.prepareOpen p0 flags mode SQEntry.zero),
              Call.register (toUintptr cqe.Result)] ++
              (File.Close env (File.mk (toUintptr cqe.Result) name (toUintptr cqe.Result) 0
                fsm.fixedFiles)).1,
            file := none, err := some err }
        | (idx, none) =>
          { calls := [Call.submit (Filesystem.prepareOpen p0 flags mode SQEntry.zero),
              Call.register (toUintptr cqe.Result)],
            file := some (File.mk (toUintptr cqe.Result) name idx (0 ||| IOSQE_FIXED_FILE)
              fsm.fixedFiles),
            err := none }
      else
        { calls := [Call.submit (Filesystem.prepareOpen p0 flags mode SQEntry.zero)],
          file := some (File.mk (toUintptr cqe.Result) name (toUintptr cqe.Result) 0
            fsm.fixedFiles),
          err := none } := by
  unfold Filesystem.Open
  simp only [hs]

/-- C15, as stated, fails: when the openat completion has result −2^31 the
32-bit negation wraps, and `Open` returns no File and the errno 2^64 − 2^31, not
the errno 2^31. -/
theorem Open_min_result_errno :
    (CQEntry.mk 0 (-2147483648) 0).Result < 0 ∧
    ((Filesystem.mk false).Open
      (Env.mk (fun _ => (CQEntry.mk 0 (-2147483648) 0, none)) (fun _ => (0, none)))
      "data" (Except.ok 4096) 0 0).file = none ∧
    ((Filesystem.mk false).Open
      (Env.mk (fun _ => (CQEntry.mk 0 (-2147483648) 0, none)) (fun _ => (0, none)))
      "data" (Except.ok 4096) 0 0).err = some (GoError.errno 18446744071562067968) ∧
    ((Filesystem.mk false).Open
      (Env.mk (fun _ => (CQEntry.mk 0 (-2147483648) 0, none)) (fun _ => (0, none)))
      "data" (Except.ok 4096) 0 0).err ≠
      some (GoError.errno (CQEntry.mk 0 (-2147483648) 0).Result.natAbs) := by
  refine ⟨by decide, by decide, by decide, by decide⟩

/-- C15, amended: let the loop complete the openat entry of `Open` with result r
(an int32) and no error.  If r ≥ 0 the File returned has fd = r; without a
fixed-file table its ufd equals its fd and its flags are 0; with one, when
`register(fd)` returns slot idx without error, its ufd is idx and its flags
contain IOSQE_FIXED_FILE.  If r is negative and above −2^31, `Open` returns no
File and the errno −r. -/
theorem Open_outcome (env : Env) (fsm : Filesystem) (name : String) (p0 : Nat)
    (flags : Int) (mode : Nat) (cqe : CQEntry)
    (hs : env.Syscall (Filesystem.prepareOpen p0 flags mode SQEntry.zero) = (cqe, none))
    (hr : cqe.Result < 2 ^ 31) :
    (0 ≤ cqe.Result → fsm.fixedFiles = false →
      ∃ f, (fsm.Open env name (Except.ok p0) flags mode).file = some f ∧
        (fsm.Open env name (Except.ok p0) flags mode).err = none ∧
        (f.fd : Int) = cqe.Result ∧ f.ufd = f.fd ∧ f.flags = 0) ∧
    (0 ≤ cqe.Result → fsm.fixedFiles = true →
      ∀ idx, env.register (toUintptr cqe.Result) = (idx, none) →
      ∃ f, (fsm.Open env name (Except.ok p0) flags mode).file = some f ∧
        (fsm.Open env name (Except.ok p0) flags mode).err = none ∧
        (f.fd : Int) = cqe.Result ∧ f.ufd = idx ∧
        f.flags &&& IOSQE_FIXED_FILE = IOSQE_FIXED_FILE) ∧
    (cqe.Result < 0 → -2 ^ 31 < cqe.Result →
      (fsm.Open env name (Except.ok p0) flags mode).file = none ∧
      (fsm.Open env name (Except.ok p0) flags mode).err =
        some (GoError.errno (-cqe.Result).toNat) ∧
      (((-cqe.Result).toNat : Nat) : Int) = -cqe.Result) := by
  rw [Filesystem.Open_eq env fsm name p0 flags mode cqe hs]
  refine ⟨?_, ?_, ?_⟩
  · intro h0 hf
    rw [if_neg (not_lt.mpr h0), hf]
    exact ⟨_, rfl, rfl, (toUintptr_of_nonneg _ h0 hr).1, rfl, rfl⟩
  · intro h0 hf idx hreg
    rw [if_neg (not_lt.mpr h0), hf, if_pos rfl, hreg]
    have hflag : (0 ||| IOSQE_FIXED_FILE) &&& IOSQE_FIXED_FILE = IOSQE_FIXED_FILE := by
      decide
    exact ⟨_, rfl, rfl, (toUintptr_of_nonneg _ h0 hr).1, rfl, hflag⟩
  · intro h0 h1
    rw [if_pos h0, wrapInt32_neg_of_small _ h0 h1]
    exact ⟨rfl, rfl, by omega⟩

/-- Witness of C15: a filesystem with a fixed-file table, the loop completing
the openat entry with descriptor 5 and the table answering slot 2. -/
theorem Open_outcome_witness :
    ∃ f, ((Filesystem.mk true).Open
        (Env.mk (fun _ => (CQEntry.mk 0 5 0, none)) (fun _ => (2, none)))
        "data" (Except.ok 4096) 0 420).file = some f ∧
      (f.fd : Int) = 5 ∧ f.ufd = 2 ∧ f.flags &&& IOSQE_FIXED_FILE = IOSQE_FIXED_FILE := by
  obtain ⟨f, hf, -, h1, h2, h3⟩ :=
    (Open_outcome (Env.mk (fun _ => (CQEntry.mk 0 5 0, none)) (fun _ => (2, none)))
      (Filesystem.mk true) "data" 4096 0 420 (CQEntry.mk 0 5 0) rfl (by decide)).2.1
      (by decide) rfl 2 rfl
  exact ⟨f, hf, h1, h2, h3⟩

theorem Mmap_ok (length : Int) (kernel : Except GoError Nat) (mem : Slice Nat)
    (h : Mmap length kernel = Except.ok mem) :
    0 < length ∧ mem.len = length.toNat ∧ kernel = Except.ok mem.data := by
  unfold Mmap at h
  split at h
  · cases h
  · split at h
    · cases h
    · injection h with h
      subst h
      exact ⟨by omega, by simp [Slice.len], rfl⟩

theorem wrapInt64_lt (x : Int) : wrapInt64 x < 2 ^ 63 := by
  unfold wrapInt64
  omega

theorem allocator.init_of_mmap_ok (a : allocator) (kernel : Except GoError Nat)
    (reg : Slice Iovec → Option GoError) (iovecAddr : Nat) (mem : Slice Nat)
    (hm : Mmap (wrapInt64 (a.bufferSize * a.max)) kernel = Except.ok mem) :
    a.init kernel reg iovecAddr = some
      { alloc := { a with mem := mem }
        registered := [Slice.mk iovecAddr [Iovec.mk mem.data mem.len]]
        ret := reg (Slice.mk iovecAddr [Iovec.mk mem.data mem.len]) } := by
  obtain ⟨hpos, hlen, -⟩ := Mmap_ok _ _ _ hm
  have hlt := wrapInt64_lt (a.bufferSize * a.max)
  have hfirst : mem.addrOfFirst = some mem.data := by
    unfold Slice.addrOfFirst
    rw [if_pos (by omega)]
  have h64 : toUint64 (wrapInt64 (a.bufferSize * a.max)) = mem.len := by
    unfold toUint64
    rw [hlen]
    congr 1
    omega
  unfold allocator.init
  simp only [hm, hfirst, h64]

/-- C16: for an allocator with buffer size s and count n, when the anonymous
mapping succeeds `init` stores it as the arena and calls `RegisterBuffers`
exactly once, with a vector of exactly one iovec whose base is the first byte of
the arena and whose length is that of the arena, s × n for a mapping of s × n
bytes, and returns the result of that call; when the mapping fails `init`
returns the mapping error and registers nothing. -/
theorem init_registers_arena_once (a : allocator) (kernel : Except GoError Nat)
    (reg : Slice Iovec → Option GoError) (iovecAddr : Nat) :
    (∀ mem, Mmap (wrapInt64 (a.bufferSize * a.max)) kernel = Except.ok mem →
      (mem.len : Int) = a.bufferSize * a.max →
      mem.addrOfFirst = some mem.data ∧
      ∃ out, a.init kernel reg iovecAddr = some out ∧
        out.alloc.mem = mem ∧ out.alloc.max = a.max ∧ out.alloc.bufferSize = a.bufferSize ∧
        out.registered =
          [Slice.mk iovecAddr [Iovec.mk mem.data (a.bufferSize * a.max).toNat]] ∧
        out.ret = reg (Slice.mk iovecAddr [Iovec.mk mem.data (a.bufferSize * a.max).toNat])) ∧
    (∀ err, Mmap (wrapInt64 (a.bufferSize * a.max)) kernel = Except.error err →
      ∃ out, a.init kernel reg iovecAddr = some out ∧
        out.alloc = a ∧ out.registered = [] ∧ out.ret = some err) := by
  constructor
  · intro mem hm hsz
    obtain ⟨hpos, hlen, -⟩ := Mmap_ok _ _ _ hm
    have hn : (a.bufferSize * a.max).toNat = mem.len := by omega
    refine ⟨?_, _, a.init_of_mmap_ok kernel reg iovecAddr mem hm, rfl, rfl, rfl, ?_, ?_⟩
    · unfold Slice.addrOfFirst
      rw [if_pos (by omega)]
    · rw [hn]
    · rw [hn]
  · intro err hm
    refine ⟨{ alloc := a, registered := [], ret := some err }, ?_, rfl, rfl, rfl⟩
    unfold allocator.init
    simp only [hm]

/-- Witness of C16: 3 buffers of 2 bytes, the kernel mapping the arena at 4096
and the registry accepting the vector. -/
theorem init_registers_arena_once_witness :
    ∃ out, (allocator.mk 3 2 (Slice.mk 0 [])).init (Except.ok 4096) (fun _ => none) 512 =
        some out ∧
      out.alloc.mem = Slice.mk 4096 [0, 0, 0, 0, 0, 0] ∧
      out.registered = [Slice.mk 512 [Iovec.mk 4096 6]] ∧ out.ret = none := by
  obtain ⟨-, out, h, h1, -, -, h2, h3⟩ :=
    (init_registers_arena_once (allocator.mk 3 2 (Slice.mk 0 [])) (Except.ok 4096)
      (fun _ => none) 512).1 (Slice.mk 4096 [0, 0, 0, 0, 0, 0]) rfl rfl
  exact ⟨out, h, h1, h2, h3⟩

/-- C17: the per-entry flag constants are the single bits 0 to 5 in order,
IOSQE_FIXED_FILE = 1, IOSQE_IO_DRAIN = 2, IOSQE_IO_LINK = 4,
IOSQE_IO_HARDLINK = 8, IOSQE_ASYNC = 16, IOSQE_BUFFER_SELECT = 32; they are
pairwise disjoint, and for every subset of them the bitwise OR stored by
`SetFlags` has the bit of a flag set exactly when the flag is in the subset. -/
theorem sqe_flag_constants (e : SQEntry) :
    IOSQE_FIXED_FILE = 1 ∧ IOSQE_IO_DRAIN = 2 ∧ IOSQE_IO_LINK = 4 ∧
    IOSQE_IO_HARDLINK = 8 ∧ IOSQE_ASYNC = 16 ∧ IOSQE_BUFFER_SELECT = 32 ∧
    (∀ i : Fin 6, sqeFlagConsts[i]! = 2 ^ (i : Nat)) ∧
    (∀ i j : Fin 6, i = j ∨ sqeFlagConsts[i]! &&& sqeFlagConsts[j]! = 0) ∧
    (∀ (S : { S : List Nat // S ∈ sqeFlagConsts.sublists }) (i : Fin 6),
      (bitSet (e.SetFlags (orFlags S.1)).GetFlags i = true ↔ sqeFlagConsts[i]! ∈ S.1)) := by
  refine ⟨by decide, by decide, by decide, by decide, by decide, by decide, by decide,
    by decide, ?_⟩
  rintro ⟨S, hS⟩ i
  show bitSet (orFlags S) i = true ↔ sqeFlagConsts[i]! ∈ S
  revert i
  revert S
  decide

/-- C18: the three syscall-number constants are IO_URING_SETUP = 425,
IO_URING_ENTER = 426 and IO_URING_REGISTER = 427. -/
theorem syscall_numbers :
    IO_URING_SETUP = 425 ∧ IO_URING_ENTER = 426 ∧ IO_URING_REGISTER = 427 := by
  decide

/-- C19, the code at a failing input: an entry whose opcode flags are 6 (bits 1
and 2 set).  After `Timeout` and after `LinkTimeout` with abs = true the opcode
flags are 1: the ABS bit is set but bits 1 and 2 are cleared, the flag is stored
over the previous flags and not added to them.  With abs = false the opcode
flags are unchanged, for every entry. -/
theorem Timeout_abs_overwrites_opcode_flags :
    (Timeout (SQEntry.zero.SetOpcodeFlags 6) 4096 true 0).opcodeFlags = 1 ∧
    (LinkTimeout (SQEntry.zero.SetOpcodeFlags 6) 4096 true).opcodeFlags = 1 ∧
    bitSet (SQEntry.zero.SetOpcodeFlags 6).opcodeFlags 1 = true ∧
    bitSet (Timeout (SQEntry.zero.SetOpcodeFlags 6) 4096 true 0).opcodeFlags 1 = false ∧
    bitSet (LinkTimeout (SQEntry.zero.SetOpcodeFlags 6) 4096 true).opcodeFlags 1 = false ∧
    (Timeout (SQEntry.zero.SetOpcodeFlags 6) 4096 true 0).opcodeFlags ≠
      (SQEntry.zero.SetOpcodeFlags 6).opcodeFlags ||| IORING_TIMEOUT_ABS ∧
    (∀ (e : SQEntry) (ts count : Nat),
      (Timeout e ts true count).opcodeFlags = IORING_TIMEOUT_ABS ∧
      (LinkTimeout e ts true).opcodeFlags = IORING_TIMEOUT_ABS ∧
      (Timeout e ts false count).opcodeFlags = e.opcodeFlags ∧
      (LinkTimeout e ts false).opcodeFlags = e.opcodeFlags) :=
  ⟨by decide, by decide, by decide, by decide, by decide, by decide,
    fun _ _ _ => ⟨rfl, rfl, rfl, rfl⟩⟩

theorem File.prepareWriteAt_some (f : File) (iovec : Slice Iovec) (off : Int) (sqe : SQEntry)
    (hv : 0 < iovec.len) :
    f.prepareWriteAt iovec off sqe =
      some { sqe with opcode := IORING_OP_WRITEV, fd := toInt32 f.ufd,
                      len := toUint32 iovec.len, offset := toUint64 off, opcodeFlags := 0,
                      addr := iovec.data, flags := f.flags } := by
  unfold File.prepareWriteAt
  rw [Writev_some _ _ _ _ _ hv]
  rfl

theorem File.prepareReadAt_some (f : File) (iovec : Slice Iovec) (off : Int) (sqe : SQEntry)
    (hv : 0 < iovec.len) :
    f.prepareReadAt iovec off sqe =
      some { sqe with opcode := IORING_OP_READV, fd := toInt32 f.ufd,
                      len := toUint32 iovec.len, offset := toUint64 off, opcodeFlags := 0,
                      addr := iovec.data, flags := f.flags } := by
  unfold File.prepareReadAt
  rw [Readv_some _ _ _ _ _ hv]
  rfl

theorem Slice.addrOfFirst_of_ne {α : Type} (s : Slice α) (h : s.len ≠ 0) :
    s.addrOfFirst = some s.data := by
  unfold Slice.addrOfFirst
  rw [if_pos (Nat.pos_of_ne_zero h)]

theorem File.Close_calls (env : Env) (f : File) :
    (f.Close env).1 =
      (if f.fixedFiles then [Call.unregister f.ufd] else []) ++
        [Call.submit (f.prepareClose SQEntry.zero)] := by
  unfold File.Close
  simp only
  split <;> rfl

theorem File.Sync_calls (env : Env) (f : File) :
    (f.Sync env).1 = [Call.submit (f.prepareSync SQEntry.zero)] := by
  unfold File.Sync
  simp only
  split <;> rfl

theorem File.Datasync_calls (env : Env) (f : File) :
    (f.Datasync env).1 = [Call.submit (f.prepareDatasync SQEntry.zero)] := by
  unfold File.Datasync
  simp only
  split <;> rfl

theorem Filesystem.Open_file (env : Env) (fsm : Filesystem) (name : String)
    (bytePtr : Except GoError Nat) (flags : Int) (mode : Nat) (g : File)
    (hres : ∀ sqe, (env.Syscall sqe).1.Result < 2 ^ 31)
    (hg : (fsm.Open env name bytePtr flags mode).file = some g) :
    g.fd < 2 ^ 31 ∧
    (fsm.fixedFiles = false → g.ufd = g.fd ∧ g.flags = 0) ∧
    (fsm.fixedFiles = true → env.register g.fd = (g.ufd, none) ∧ g.flags = IOSQE_FIXED_FILE) := by
  cases bytePtr with
  | error err => exact absurd hg (by simp [Filesystem.Open])
  | ok p0 =>
    have hr := hres (Filesystem.prepareOpen p0 flags mode SQEntry.zero)
    rcases hsys : env.Syscall (Filesystem.prepareOpen p0 flags mode SQEntry.zero) with
      ⟨cqe, err⟩
    rw [hsys] at hr
    cases err with
    | some e =>
      unfold Filesystem.Open at hg
      simp only [hsys] at hg
      exact absurd hg (by simp)
    | none =>
      rw [Filesystem.Open_eq env fsm name p0 flags mode cqe hsys] at hg
      by_cases hneg : cqe.Result < 0
      · rw [if_pos hneg] at hg
        exact absurd hg (by simp)
      · rw [if_neg hneg] at hg
        have hfd := (toUintptr_of_nonneg cqe.Result (not_lt.mp hneg) hr).2
        cases hff : fsm.fixedFiles with
        | false =>
          rw [hff] at hg
          simp only [Bool.false_eq_true, if_false, Option.some.injEq] at hg
          subst hg
          exact ⟨hfd, fun _ => ⟨rfl, rfl⟩, fun h => absurd h (by simp)⟩
        | true =>
          rw [hff, if_pos rfl] at hg
          rcases hreg : env.register (toUintptr cqe.Result) with ⟨idx, rerr⟩
          rw [hreg] at hg
          cases rerr with
          | some e => exact absurd hg (by simp)
          | none =>
            simp only [Option.some.injEq] at hg
            subst hg
            have h01 : 0 ||| IOSQE_FIXED_FILE = IOSQE_FIXED_FILE := by decide
            exact ⟨hfd, fun h => absurd h (by simp), fun _ => ⟨hreg, h01⟩⟩

theorem File.WriteAt_submits (env : Env) (f : File) (buf : Slice Nat) (off : Int)
    (iovecAddr : Nat) (hbuf : buf.len ≠ 0) :
    f.WriteAt env buf off iovecAddr =
      some ([Call.submit
          { SQEntry.zero with opcode := IORING_OP_WRITEV, fd := toInt32 f.ufd, len := toUint32 1,
                              offset := toUint64 off, opcodeFlags := 0, addr := iovecAddr,
                              flags := f.flags }],
        ioRst
          (env.Syscall
            { SQEntry.zero with opcode := IORING_OP_WRITEV, fd := toInt32 f.ufd, len := toUint32 1,
                                offset := toUint64 off, opcodeFlags := 0, addr := iovecAddr,
                                flags := f.flags }).1
          (env.Syscall
            { SQEntry.zero with opcode := IORING_OP_WRITEV, fd := toInt32 f.ufd, len := toUint32 1,
                                offset := toUint64 off, opcodeFlags := 0, addr := iovecAddr,
                                flags := f.flags }).2) := by
  unfold File.WriteAt
  rw [if_neg hbuf, Slice.addrOfFirst_of_ne buf hbuf]
  simp only [Option.bind_eq_bind, Option.some_bind]
  rw [File.prepareWriteAt_some f (Slice.mk iovecAddr [Iovec.mk buf.data buf.len]) off
    SQEntry.zero Nat.one_pos]
  rfl

theorem File.ReadAt_submits (env : Env) (f : File) (buf : Slice Nat) (off : Int)
    (iovecAddr : Nat) (hbuf : buf.len ≠ 0) :
    f.ReadAt env buf off iovecAddr =
      some ([Call.submit
          { SQEntry.zero with opcode := IORING_OP_READV, fd := toInt32 f.ufd, len := toUint32 1,
                              offset := toUint64 off, opcodeFlags := 0, addr := iovecAddr,
                              flags := f.flags }],
        ioRst
          (env.Syscall
            { SQEntry.zero with opcode := IORING_OP_READV, fd := toInt32 f.ufd, len := toUint32 1,
                                offset := toUint64 off, opcodeFlags := 0, addr := iovecAddr,
                                flags := f.flags }).1
          (env.Syscall
            { SQEntry.zero with opcode := IORING_OP_READV, fd := toInt32 f.ufd, len := toUint32 1,
                                offset := toUint64 off, opcodeFlags := 0, addr := iovecAddr,
                                flags := f.flags }).2) := by
  unfold File.ReadAt
  rw [if_neg hbuf, Slice.addrOfFirst_of_ne buf hbuf]
  simp only [Option.bind_eq_bind, Option.some_bind]
  rw [File.prepareReadAt_some f (Slice.mk iovecAddr [Iovec.mk buf.data buf.len]) off
    SQEntry.zero Nat.one_pos]
  rfl

/-- Entries of an arbitrary `File` value: the fd field is the ufd (for `Sync`,
`Datasync`, `Close` the fd) converted to int32 and the flags are those of the
File (for `Sync`, `Datasync`, `Close` the fixed-file flag is clear); and the
shape of a File that `Open` returns. -/
theorem File.entries_of_any_file (env : Env) (f : File) (buf : Slice Nat) (b : Buffer)
    (off : Int) (iovecAddr : Nat) (hbuf : buf.len ≠ 0) (hb : b.Len ≠ 0) :
    (∃ w, f.WriteAt env buf off iovecAddr =
        some ([Call.submit w], ioRst (env.Syscall w).1 (env.Syscall w).2) ∧
      w.fd = toInt32 f.ufd ∧ (f.ufd < 2 ^ 31 → w.fd = (f.ufd : Int)) ∧ w.flags = f.flags) ∧
    (∃ r, f.ReadAt env buf off iovecAddr =
        some ([Call.submit r], ioRst (env.Syscall r).1 (env.Syscall r).2) ∧
      r.fd = toInt32 f.ufd ∧ (f.ufd < 2 ^ 31 → r.fd = (f.ufd : Int)) ∧ r.flags = f.flags) ∧
    (∃ w, (f.WriteAtFixed env b off).1 = [Call.submit w] ∧
      w.fd = toInt32 f.ufd ∧ (f.ufd < 2 ^ 31 → w.fd = (f.ufd : Int)) ∧ w.flags = f.flags) ∧
    (∃ r, (f.ReadAtFixed env b off).1 = [Call.submit r] ∧
      r.fd = toInt32 f.ufd ∧ (f.ufd < 2 ^ 31 → r.fd = (f.ufd : Int)) ∧ r.flags = f.flags) ∧
    (∃ s, (f.Sync env).1 = [Call.submit s] ∧
      s.fd = toInt32 f.fd ∧ (f.fd < 2 ^ 31 → s.fd = (f.fd : Int)) ∧
      s.flags &&& IOSQE_FIXED_FILE = 0) ∧
    (∃ d, (f.Datasync env).1 = [Call.submit d] ∧
      d.fd = toInt32 f.fd ∧ (f.fd < 2 ^ 31 → d.fd = (f.fd : Int)) ∧
      d.flags &&& IOSQE_FIXED_FILE = 0) ∧
    (∃ c, (f.Close env).1 =
        (if f.fixedFiles then [Call.unregister f.ufd] else []) ++ [Call.submit c] ∧
      c.fd = toInt32 f.fd ∧ (f.fd < 2 ^ 31 → c.fd = (f.fd : Int)) ∧
      c.flags &&& IOSQE_FIXED_FILE = 0) ∧
    (∀ (fsm : Filesystem) (name : String) (bytePtr : Except GoError Nat) (flags : Int)
      (mode : Nat) (g : File), (∀ sqe, (env.Syscall sqe).1.Result < 2 ^ 31) →
      (fsm.Open env name bytePtr flags mode).file = some g →
      g.fd < 2 ^ 31 ∧
      (fsm.fixedFiles = false → g.ufd = g.fd ∧ g.flags = 0) ∧
      (fsm.fixedFiles = true →
        env.register g.fd = (g.ufd, none) ∧ g.flags = IOSQE_FIXED_FILE) ∧
      (g.flags &&& IOSQE_FIXED_FILE = IOSQE_FIXED_FILE ↔ fsm.fixedFiles = true)) := by
  have hz : (0 : Nat) &&& IOSQE_FIXED_FILE = 0 := by decide
  refine ⟨?_, ?_, ?_, ?_, ?_, ?_, ?_, ?_⟩
  · exact ⟨_, f.WriteAt_submits env buf off iovecAddr hbuf, rfl,
      fun h => toInt32_of_lt _ h, rfl⟩
  · exact ⟨_, f.ReadAt_submits env buf off iovecAddr hbuf, rfl,
      fun h => toInt32_of_lt _ h, rfl⟩
  · refine ⟨f.prepareWriteAtFixed b off SQEntry.zero, ?_, rfl,
      fun h => toInt32_of_lt _ h, rfl⟩
    unfold File.WriteAtFixed
    rw [if_neg hb]
  · refine ⟨f.prepareReadAtFixed b off SQEntry.zero, ?_, rfl,
      fun h => toInt32_of_lt _ h, rfl⟩
    unfold File.ReadAtFixed
    rw [if_neg hb]
  · exact ⟨_, f.Sync_calls env, rfl, fun h => toInt32_of_lt _ h, hz⟩
  · exact ⟨_, f.Datasync_calls env, rfl, fun h => toInt32_of_lt _ h, hz⟩
  · exact ⟨_, f.Close_calls env, rfl, fun h => toInt32_of_lt _ h, hz⟩
  · intro fsm name bytePtr flags mode g hres hg
    obtain ⟨h1, h2, h3⟩ := Filesystem.Open_file env fsm name bytePtr flags mode g hres hg
    refine ⟨h1, h2, h3, ?_⟩
    cases hff : fsm.fixedFiles with
    | false =>
      rw [(h2 hff).2]
      decide
    | true =>
      rw [(h3 hff).2]
      decide

/-- C20: every submission entry that a File returned by `Open` prepares from a
zeroed entry in `WriteAt`, `ReadAt`, `WriteAtFixed` or `ReadAtFixed` has its fd
field equal to the ufd of the File and its SQE flags equal to the flags of the
File (completion results are int32 and the slots of the fixed-file table are
below 2^31).  The flags carry IOSQE_FIXED_FILE exactly when the filesystem has a
fixed-file table, in which case the ufd is the slot that `register(fd)`
returned; without a table the ufd is the raw descriptor and the flags are 0.
The entries prepared by `Sync`, `Datasync` and `Close` carry the raw descriptor
fd with the fixed-file flag clear. -/
theorem Open_File_entries_fd_and_flags (env : Env) (fsm : Filesystem) (name : String)
    (bytePtr : Except GoError Nat) (flags : Int) (mode : Nat) (g : File) (buf : Slice Nat)
    (b : Buffer) (off : Int) (iovecAddr : Nat)
    (hres : ∀ sqe, (env.Syscall sqe).1.Result < 2 ^ 31)
    (hg : (fsm.Open env name bytePtr flags mode).file = some g)
    (hslot : fsm.fixedFiles = true → g.ufd < 2 ^ 31)
    (hbuf : buf.len ≠ 0) (hb : b.Len ≠ 0) :
    (∃ w, g.WriteAt env buf off iovecAddr =
        some ([Call.submit w], ioRst (env.Syscall w).1 (env.Syscall w).2) ∧
      w.fd = (g.ufd : Int) ∧ w.flags = g.flags) ∧
    (∃ r, g.ReadAt env buf off iovecAddr =
        some ([Call.submit r], ioRst (env.Syscall r).1 (env.Syscall r).2) ∧
      r.fd = (g.ufd : Int) ∧ r.flags = g.flags) ∧
    (∃ w, (g.WriteAtFixed env b off).1 = [Call.submit w] ∧
      w.fd = (g.ufd : Int) ∧ w.flags = g.flags) ∧
    (∃ r, (g.ReadAtFixed env b off).1 = [Call.submit r] ∧
      r.fd = (g.ufd : Int) ∧ r.flags = g.flags) ∧
    (g.flags &&& IOSQE_FIXED_FILE = IOSQE_FIXED_FILE ↔ fsm.fixedFiles = true) ∧
    (fsm.fixedFiles = true → env.register g.fd = (g.ufd, none)) ∧
    (fsm.fixedFiles = false → g.ufd = g.fd ∧ g.flags = 0) ∧
    (∃ s, (g.Sync env).1 = [Call.submit s] ∧
      s.fd = (g.fd : Int) ∧ s.flags &&& IOSQE_FIXED_FILE = 0) ∧
    (∃ d, (g.Datasync env).1 = [Call.submit d] ∧
      d.fd = (g.fd : Int) ∧ d.flags &&& IOSQE_FIXED_FILE = 0) ∧
    (∃ c, (g.Close env).1 =
        (if g.fixedFiles then [Call.unregister g.ufd] else []) ++ [Call.submit c] ∧
      c.fd = (g.fd : Int) ∧ c.flags &&& IOSQE_FIXED_FILE = 0) := by
  obtain ⟨hw, hr, hwf, hrf, hs, hd, hc, hopen⟩ :=
    File.entries_of_any_file env g buf b off iovecAddr hbuf hb
  obtain ⟨hfd, hno, htab, hiff⟩ := hopen fsm name bytePtr flags mode g hres hg
  have hufd : g.ufd < 2 ^ 31 := by
    cases hff : fsm.fixedFiles with
    | false => rw [(hno hff).1]; exact hfd
    | true => exact hslot hff
  refine ⟨?_, ?_, ?_, ?_, hiff, fun h => (htab h).1, hno, ?_, ?_, ?_⟩
  · obtain ⟨w, h1, -, h3, h4⟩ := hw
    exact ⟨w, h1, h3 hufd, h4⟩
  · obtain ⟨r, h1, -, h3, h4⟩ := hr
    exact ⟨r, h1, h3 hufd, h4⟩
  · obtain ⟨w, h1, -, h3, h4⟩ := hwf
    exact ⟨w, h1, h3 hufd, h4⟩
  · obtain ⟨r, h1, -, h3, h4⟩ := hrf
    exact ⟨r, h1, h3 hufd, h4⟩
  · obtain ⟨x, h1, -, h3, h4⟩ := hs
    exact ⟨x, h1, h3 hfd, h4⟩
  · obtain ⟨x, h1, -, h3, h4⟩ := hd
    exact ⟨x, h1, h3 hfd, h4⟩
  · obtain ⟨x, h1, -, h3, h4⟩ := hc
    exact ⟨x, h1, h3 hfd, h4⟩

/-- Witness of C20: a filesystem with a fixed-file table; the loop completes
every entry with result 5 and the table answers slot 2, so `Open` returns the
File with fd 5, ufd 2 and the fixed-file flag.  Its `WriteAt` entry carries fd 2
and flags 1, its `Close` entry carries fd 5 with the fixed-file flag clear. -/
theorem Open_File_entries_fd_and_flags_witness :
    ((Filesystem.mk true).Open
      (Env.mk (fun _ => (CQEntry.mk 0 5 0, none)) (fun _ => (2, none)))
      "data" (Except.ok 4096) 0 420).file = some (File.mk 5 "data" 2 1 true) ∧
    (∃ w, (File.mk 5 "data" 2 1 true).WriteAt
        (Env.mk (fun _ => (CQEntry.mk 0 5 0, none)) (fun _ => (2, none)))
        (Slice.mk 8192 [104, 105]) 0 512 = some ([Call.submit w], (5, none)) ∧
      w.fd = 2 ∧ w.flags = 1) ∧
    (∃ c, (File.Close (Env.mk (fun _ => (CQEntry.mk 0 5 0, none)) (fun _ => (2, none)))
        (File.mk 5 "data" 2 1 true)).1 = [Call.unregister 2, Call.submit c] ∧
      c.fd = 5 ∧ c.flags &&& IOSQE_FIXED_FILE = 0) := by
  have h := Open_File_entries_fd_and_flags
    (Env.mk (fun _ => (CQEntry.mk 0 5 0, none)) (fun _ => (2, none)))
    (Filesystem.mk true) "data" (Except.ok 4096) 0 420 (File.mk 5 "data" 2 1 true)
    (Slice.mk 8192 [104, 105]) (Buffer.mk 12288 2 0) 0 512
    (fun _ => (by decide : (5 : Int) < 2 ^ 31)) (by decide) (fun _ => by decide) (by decide)
    (by decide)
  obtain ⟨⟨w, hw1, hw2, hw3⟩, -, -, -, -, -, -, -, -, ⟨c, hc1, hc2, hc3⟩⟩ := h
  exact ⟨by decide, ⟨w, hw1, hw2, hw3⟩, ⟨c, hc1, hc2, hc3⟩⟩

/-- C21, the code at a failing input: a filesystem with a fixed-file table, the
loop completing the openat entry with descriptor 5 and the table refusing
`register(5)` with an error.  `Open` returns no File and the registration error
and closes descriptor 5, but on the way `Close` calls `unregister(5)`: the
argument is the raw descriptor, which `register` never returned as a slot. -/
theorem Open_register_failure_unregisters_descriptor :
    ((Filesystem.mk true).Open
      (Env.mk (fun _ => (CQEntry.mk 0 5 0, none)) (fun _ => (0, some (GoError.other 1))))
      "data" (Except.ok 4096) 0 420).calls =
      [Call.submit (Filesystem.prepareOpen 4096 0 420 SQEntry.zero), Call.register 5,
       Call.unregister 5, Call.submit (uring.Close SQEntry.zero 5)] ∧
    ((Filesystem.mk true).Open
      (Env.mk (fun _ => (CQEntry.mk 0 5 0, none)) (fun _ => (0, some (GoError.other 1))))
      "data" (Except.ok 4096) 0 420).file = none ∧
    ((Filesystem.mk true).Open
      (Env.mk (fun _ => (CQEntry.mk 0 5 0, none)) (fun _ => (0, some (GoError.other 1))))
      "data" (Except.ok 4096) 0 420).err = some (GoError.other 1) ∧
    Call.unregister 5 ∈ ((Filesystem.mk true).Open
      (Env.mk (fun _ => (CQEntry.mk 0 5 0, none)) (fun _ => (0, some (GoError.other 1))))
      "data" (Except.ok 4096) 0 420).calls := by
  refine ⟨by decide, by decide, by decide, by decide⟩

theorem KeepsTagAndFlags.of_total (P : SQEntry → SQEntry)
    (h : ∀ (e : SQEntry) (t f : Nat),
      P (e.SetUserData t) = (P e).SetUserData t ∧ P (e.SetFlags f) = (P e).SetFlags f ∧
      (P e).userData = e.userData ∧ (P e).flags = e.flags ∧ (P e).ioprio = e.ioprio ∧
      (P e).personality = e.personality ∧ (P e).spliceFdIn = e.spliceFdIn) :
    KeepsTagAndFlags (fun e => some (P e)) := by
  intro e t f
  obtain ⟨h1, h2, h3, h4, h5, h6, h7⟩ := h e t f
  exact ⟨congrArg some h1, congrArg some h2, congrArg some h3, congrArg some h4,
    congrArg some h5, congrArg some h6, congrArg some h7⟩

/-- C22: no preparer of `ops.go` (Nop, Write, Read, ReadNoBuf, Writev, Readv,
WriteFixed, ReadFixed, Fsync, Fdatasync, Openat, Close, Send, Recv, Timeout,
LinkTimeout, Mkdirat, Accept, ProvideBuf, ProvideSingleBuf) modifies the
user-data tag, the SQE flags, ioprio, personality or spliceFdIn of the entry it
fills; `SetUserData t` or `SetFlags f` applied before the preparer yields the
same entry as applied after it, as with `Readv` followed by
`SetFlags(IOSQE_IO_LINK)` and `Nop` followed by `SetUserData`. -/
theorem preparers_keep_tag_and_flags (fd base len offset flags bufIndex pathptr mode ts
    count clientAddr bufferCount bufferSize gid : Nat) (dfd : Int) (abs : Bool)
    (buf : Slice Nat) (iovec : Slice Iovec) (lenp : PtrParam) (bufs : Slice (List Nat)) :
    KeepsTagAndFlags (fun e => some (Nop e)) ∧
    KeepsTagAndFlags (fun e => Write e fd buf) ∧
    KeepsTagAndFlags (fun e => Read e fd buf) ∧
    KeepsTagAndFlags (fun e => some (ReadNoBuf e fd len)) ∧
    KeepsTagAndFlags (fun e => Writev e fd iovec offset flags) ∧
    KeepsTagAndFlags (fun e => Readv e fd iovec offset flags) ∧
    KeepsTagAndFlags (fun e => some (WriteFixed e fd base len offset flags bufIndex)) ∧
    KeepsTagAndFlags (fun e => some (ReadFixed e fd base len offset flags bufIndex)) ∧
    KeepsTagAndFlags (fun e => some (Fsync e fd)) ∧
    KeepsTagAndFlags (fun e => some (Fdatasync e fd)) ∧
    KeepsTagAndFlags (fun e => some (Openat e dfd pathptr flags mode)) ∧
    KeepsTagAndFlags (fun e => some (Close e fd)) ∧
    KeepsTagAndFlags (fun e => Send e fd buf flags) ∧
    KeepsTagAndFlags (fun e => Recv e fd buf flags) ∧
    KeepsTagAndFlags (fun e => some (Timeout e ts abs count)) ∧
    KeepsTagAndFlags (fun e => some (LinkTimeout e ts abs)) ∧
    KeepsTagAndFlags (fun e => Mkdirat e fd buf) ∧
    KeepsTagAndFlags (fun e => some (Accept e fd clientAddr lenp)) ∧
    KeepsTagAndFlags (fun e => ProvideBuf e bufs bufferCount bufferSize gid) ∧
    KeepsTagAndFlags
      (fun e => some (ProvideSingleBuf e clientAddr bufferCount bufferSize gid offset)) ∧
    (∀ e : SQEntry, (Readv e fd iovec offset flags).map (fun r => r.SetFlags IOSQE_IO_LINK) =
      Readv (e.SetFlags IOSQE_IO_LINK) fd iovec offset flags) ∧
    (∀ (e : SQEntry) (t : Nat), (Nop e).SetUserData t = Nop (e.SetUserData t)) := by
  have total : ∀ P : SQEntry → SQEntry,
      (∀ (e : SQEntry) (t f : Nat),
        P (e.SetUserData t) = (P e).SetUserData t ∧ P (e.SetFlags f) = (P e).SetFlags f ∧
        (P e).userData = e.userData ∧ (P e).flags = e.flags ∧ (P e).ioprio = e.ioprio ∧
        (P e).personality = e.personality ∧ (P e).spliceFdIn = e.spliceFdIn) →
      KeepsTagAndFlags (fun e => some (P e)) := KeepsTagAndFlags.of_total
  have hTimeout : KeepsTagAndFlags (fun e => some (Timeout e ts abs count)) := by
    apply total
    intro e t f
    cases abs <;> exact ⟨rfl, rfl, rfl, rfl, rfl, rfl, rfl⟩
  have hLink : KeepsTagAndFlags (fun e => some (LinkTimeout e ts abs)) := by
    apply total
    intro e t f
    cases abs <;> exact ⟨rfl, rfl, rfl, rfl, rfl, rfl, rfl⟩
  have hWrite : KeepsTagAndFlags (fun e => Write e fd buf) := by
    intro e t f
    simp only [Write]
    cases buf.addrOfFirst <;> exact ⟨rfl, rfl, rfl, rfl, rfl, rfl, rfl⟩
  have hRead : KeepsTagAndFlags (fun e => Read e fd buf) := by
    intro e t f
    simp only [Read]
    cases buf.addrOfFirst <;> exact ⟨rfl, rfl, rfl, rfl, rfl, rfl, rfl⟩
  have hMkdirat : KeepsTagAndFlags (fun e => Mkdirat e fd buf) := by
    intro e t f
    simp only [Mkdirat]
    cases buf.addrOfFirst <;> exact ⟨rfl, rfl, rfl, rfl, rfl, rfl, rfl⟩
  have hSend : KeepsTagAndFlags (fun e => Send e fd buf flags) := by
    intro e t f
    simp only [Send]
    cases buf.addrOfFirst <;> exact ⟨rfl, rfl, rfl, rfl, rfl, rfl, rfl⟩
  have hRecv : KeepsTagAndFlags (fun e => Recv e fd buf flags) := by
    intro e t f
    simp only [Recv]
    cases buf.addrOfFirst <;> exact ⟨rfl, rfl, rfl, rfl, rfl, rfl, rfl⟩
  have hWritev : KeepsTagAndFlags (fun e => Writev e fd iovec offset flags) := by
    intro e t f
    simp only [Writev]
    cases iovec.addrOfFirst <;> exact ⟨rfl, rfl, rfl, rfl, rfl, rfl, rfl⟩
  have hReadv : KeepsTagAndFlags (fun e => Readv e fd iovec offset flags) := by
    intro e t f
    simp only [Readv]
    cases iovec.addrOfFirst <;> exact ⟨rfl, rfl, rfl, rfl, rfl, rfl, rfl⟩
  have hProvide : KeepsTagAndFlags (fun e => ProvideBuf e bufs bufferCount bufferSize gid) := by
    intro e t f
    simp only [ProvideBuf]
    cases bufs.addrOfFirst <;> exact ⟨rfl, rfl, rfl, rfl, rfl, rfl, rfl⟩
  refine ⟨total _ fun _ _ _ => ⟨rfl, rfl, rfl, rfl, rfl, rfl, rfl⟩, hWrite, hRead,
    total _ fun _ _ _ => ⟨rfl, rfl, rfl, rfl, rfl, rfl, rfl⟩, hWritev, hReadv,
    total _ fun _ _ _ => ⟨rfl, rfl, rfl, rfl, rfl, rfl, rfl⟩,
    total _ fun _ _ _ => ⟨rfl, rfl, rfl, rfl, rfl, rfl, rfl⟩,
    total _ fun _ _ _ => ⟨rfl, rfl, rfl, rfl, rfl, rfl, rfl⟩,
    total _ fun _ _ _ => ⟨rfl, rfl, rfl, rfl, rfl, rfl, rfl⟩,
    total _ fun _ _ _ => ⟨rfl, rfl, rfl, rfl, rfl, rfl, rfl⟩,
    total _ fun _ _ _ => ⟨rfl, rfl, rfl, rfl, rfl, rfl, rfl⟩, hSend, hRecv, hTimeout, hLink,
    hMkdirat, total _ fun _ _ _ => ⟨rfl, rfl, rfl, rfl, rfl, rfl, rfl⟩, hProvide,
    total _ fun _ _ _ => ⟨rfl, rfl, rfl, rfl, rfl, rfl, rfl⟩, ?_, fun _ _ => rfl⟩
  intro e
  exact ((hReadv e 0 IOSQE_IO_LINK).2.1).symm

theorem toInt32_range (fd : Nat) :
    -2 ^ 31 ≤ toInt32 fd ∧ toInt32 fd < 2 ^ 31 ∧ (toInt32 fd - (fd : Int)) % 2 ^ 32 = 0 := by
  unfold toInt32
  split <;> omega

theorem toInt32_eq_iff (fd : Nat) : toInt32 fd = (fd : Int) ↔ fd < 2 ^ 31 := by
  constructor
  · intro h
    have := (toInt32_range fd).2.1
    omega
  · exact toInt32_of_lt fd

theorem toUint32_eq_iff (n : Nat) : toUint32 n = n ↔ n < 2 ^ 32 := by
  constructor
  · intro h
    have : toUint32 n < 2 ^ 32 := Nat.mod_lt _ (by decide)
    omega
  · exact toUint32_of_lt n

theorem Write_some (e : SQEntry) (fd : Nat) (buf : Slice Nat) (hbuf : buf.len ≠ 0) :
    Write e fd buf =
      some { e with opcode := IORING_OP_WRITE, fd := toInt32 fd, addr := buf.data,
                    len := toUint32 buf.len } := by
  simp only [Write, Slice.addrOfFirst_of_ne buf hbuf]
  rfl

theorem Read_some (e : SQEntry) (fd : Nat) (buf : Slice Nat) (hbuf : buf.len ≠ 0) :
    Read e fd buf =
      some { e with opcode := IORING_OP_READ, fd := toInt32 fd, addr := buf.data,
                    len := toUint32 buf.len } := by
  simp only [Read, Slice.addrOfFirst_of_ne buf hbuf]
  rfl

/-- C23: the preparers narrow their arguments by truncation.  For every
machine-word descriptor fd the fd field stored by `WriteFixed` and `ReadFixed`,
and by `Write` and `Read`, which return an entry for every non-empty buffer, is
the signed 32-bit integer congruent to fd modulo 2^32, and for every 64-bit
length the len field stored by `WriteFixed` and `ReadFixed` is len mod 2^32; the
stored fd equals the argument exactly when fd < 2^31, and the stored length
equals the argument exactly when len < 2^32. -/
theorem preparers_truncate_fd_and_len (e : SQEntry) (fd base len offset flags bufIndex : Nat)
    (buf : Slice Nat) :
    (WriteFixed e fd base len offset flags bufIndex).fd = toInt32 fd ∧
    (ReadFixed e fd base len offset flags bufIndex).fd = toInt32 fd ∧
    (buf.len ≠ 0 → ∃ w, Write e fd buf = some w ∧ w.fd = toInt32 fd ∧
      (w.fd = (fd : Int) ↔ fd < 2 ^ 31)) ∧
    (buf.len ≠ 0 → ∃ r, Read e fd buf = some r ∧ r.fd = toInt32 fd ∧
      (r.fd = (fd : Int) ↔ fd < 2 ^ 31)) ∧
    (Write e fd buf).map SQEntry.fd = (Write e fd buf).map (fun _ => toInt32 fd) ∧
    (Read e fd buf).map SQEntry.fd = (Read e fd buf).map (fun _ => toInt32 fd) ∧
    (-2 ^ 31 ≤ toInt32 fd ∧ toInt32 fd < 2 ^ 31 ∧ (toInt32 fd - (fd : Int)) % 2 ^ 32 = 0) ∧
    (WriteFixed e fd base len offset flags bufIndex).len = len % 2 ^ 32 ∧
    (ReadFixed e fd base len offset flags bufIndex).len = len % 2 ^ 32 ∧
    ((WriteFixed e fd base len offset flags bufIndex).fd = (fd : Int) ↔ fd < 2 ^ 31) ∧
    ((ReadFixed e fd base len offset flags bufIndex).fd = (fd : Int) ↔ fd < 2 ^ 31) ∧
    ((WriteFixed e fd base len offset flags bufIndex).len = len ↔ len < 2 ^ 32) ∧
    ((ReadFixed e fd base len offset flags bufIndex).len = len ↔ len < 2 ^ 32) := by
  refine ⟨rfl, rfl, ?_, ?_, ?_, ?_, toInt32_range fd, rfl, rfl, toInt32_eq_iff fd,
    toInt32_eq_iff fd, toUint32_eq_iff len, toUint32_eq_iff len⟩
  · intro hbuf
    exact ⟨_, Write_some e fd buf hbuf, rfl, toInt32_eq_iff fd⟩
  · intro hbuf
    exact ⟨_, Read_some e fd buf hbuf, rfl, toInt32_eq_iff fd⟩
  · simp only [Write]
    cases buf.addrOfFirst <;> rfl
  · simp only [Read]
    cases buf.addrOfFirst <;> rfl

/-- Witness of C23: descriptor 2^32 + 3 and a two-byte buffer at address 4096;
`Write` returns an entry whose fd field is 3. -/
theorem preparers_truncate_fd_and_len_witness :
    (Slice.mk 4096 [104, 105]).len ≠ 0 ∧
    ∃ w, Write SQEntry.zero 4294967299 (Slice.mk 4096 [104, 105]) = some w ∧ w.fd = 3 := by
  obtain ⟨w, h1, h2, -⟩ :=
    (preparers_truncate_fd_and_len SQEntry.zero 4294967299 0 0 0 0 0
      (Slice.mk 4096 [104, 105])).2.2.1 (by decide)
  refine ⟨by decide, w, h1, ?_⟩
  rw [h2]
  decide

theorem File.WriteAt_isSome (env : Env) (f : File) (buf : Slice Nat) (off : Int)
    (iovecAddr : Nat) : (f.WriteAt env buf off iovecAddr).isSome = true := by
  by_cases h : buf.len = 0
  · unfold File.WriteAt
    rw [if_pos h]
    rfl
  · rw [f.WriteAt_submits env buf off iovecAddr h]
    rfl

theorem File.ReadAt_isSome (env : Env) (f : File) (buf : Slice Nat) (off : Int)
    (iovecAddr : Nat) : (f.ReadAt env buf off iovecAddr).isSome = true := by
  by_cases h : buf.len = 0
  · unfold File.ReadAt
    rw [if_pos h]
    rfl
  · rw [f.ReadAt_submits env buf off iovecAddr h]
    rfl

/-- C24: for an empty byte slice `WriteAt` and `ReadAt` return (0, nil) without
preparing or submitting any entry, and for a fixed buffer of length 0
`WriteAtFixed` and `ReadAtFixed` do the same; the first-element access that
builds the iovec is reached with a non-empty slice only, where it yields the
address of the slice, so `WriteAt` and `ReadAt` return for every slice. -/
theorem File_empty_buffer_returns_early (env : Env) (f : File) (off : Int) (iovecAddr : Nat) :
    (∀ buf : Slice Nat, buf.len = 0 →
      f.WriteAt env buf off iovecAddr = some ([], (0, none)) ∧
      f.ReadAt env buf off iovecAddr = some ([], (0, none))) ∧
    (∀ b : Buffer, b.Len = 0 →
      f.WriteAtFixed env b off = ([], (0, none)) ∧
      f.ReadAtFixed env b off = ([], (0, none))) ∧
    (∀ buf : Slice Nat, buf.len ≠ 0 → buf.addrOfFirst = some buf.data) ∧
    (∀ buf : Slice Nat, (f.WriteAt env buf off iovecAddr).isSome = true ∧
      (f.ReadAt env buf off iovecAddr).isSome = true) := by
  refine ⟨?_, ?_, fun buf h => Slice.addrOfFirst_of_ne buf h,
    fun buf => ⟨f.WriteAt_isSome env buf off iovecAddr, f.ReadAt_isSome env buf off iovecAddr⟩⟩
  · intro buf h
    unfold File.WriteAt File.ReadAt
    rw [if_pos h, if_pos h]
    exact ⟨rfl, rfl⟩
  · intro b h
    unfold File.WriteAtFixed File.ReadAtFixed
    rw [if_pos h, if_pos h]
    exact ⟨rfl, rfl⟩

/-- Witness of C24: an empty slice at address 4096 and a fixed buffer of length
0, on a File registered in slot 1. -/
theorem File_empty_buffer_returns_early_witness :
    (File.mk 3 "data" 1 1 true).WriteAt
      (Env.mk (fun _ => (CQEntry.mk 0 2 0, none)) (fun _ => (1, none)))
      (Slice.mk 4096 []) 0 512 = some ([], (0, none)) ∧
    (File.mk 3 "data" 1 1 true).ReadAtFixed
      (Env.mk (fun _ => (CQEntry.mk 0 2 0, none)) (fun _ => (1, none)))
      (Buffer.mk 8192 0 0) 0 = ([], (0, none)) :=
  ⟨((File_empty_buffer_returns_early
      (Env.mk (fun _ => (CQEntry.mk 0 2 0, none)) (fun _ => (1, none)))
      (File.mk 3 "data" 1 1 true) 0 512).1 (Slice.mk 4096 []) rfl).1,
    ((File_empty_buffer_returns_early
      (Env.mk (fun _ => (CQEntry.mk 0 2 0, none)) (fun _ => (1, none)))
      (File.mk 3 "data" 1 1 true) 0 512).2.1 (Buffer.mk 8192 0 0) rfl).2⟩

/-- C25: each read preparer differs from its write counterpart only in the
opcode.  For every entry and identical arguments, replacing the opcode of the
result of `Read`, `Readv`, `ReadFixed`, `Recv` by that of `Write`, `Writev`,
`WriteFixed`, `Send` gives the result of the latter, the results carry the
opcode of their preparer, and the two opcodes of each pair are different. -/
theorem read_write_preparers_differ_in_opcode (e : SQEntry) (fd base len offset flags
    bufIndex : Nat) (buf : Slice Nat) (iovec : Slice Iovec) :
    ((Read e fd buf).map (fun r => { r with opcode := IORING_OP_WRITE }) = Write e fd buf ∧
      (Read e fd buf).map SQEntry.opcode = (Read e fd buf).map (fun _ => IORING_OP_READ) ∧
      (Write e fd buf).map SQEntry.opcode = (Write e fd buf).map (fun _ => IORING_OP_WRITE) ∧
      IORING_OP_READ ≠ IORING_OP_WRITE) ∧
    ((Readv e fd iovec offset flags).map (fun r => { r with opcode := IORING_OP_WRITEV }) =
        Writev e fd iovec offset flags ∧
      (Readv e fd iovec offset flags).map SQEntry.opcode =
        (Readv e fd iovec offset flags).map (fun _ => IORING_OP_READV) ∧
      (Writev e fd iovec offset flags).map SQEntry.opcode =
        (Writev e fd iovec offset flags).map (fun _ => IORING_OP_WRITEV) ∧
      IORING_OP_READV ≠ IORING_OP_WRITEV) ∧
    ({ ReadFixed e fd base len offset flags bufIndex with opcode := IORING_OP_WRITE_FIXED } =
        WriteFixed e fd base len offset flags bufIndex ∧
      (ReadFixed e fd base len offset flags bufIndex).opcode = IORING_OP_READ_FIXED ∧
      (WriteFixed e fd base len offset flags bufIndex).opcode = IORING_OP_WRITE_FIXED ∧
      IORING_OP_READ_FIXED ≠ IORING_OP_WRITE_FIXED) ∧
    ((Recv e fd buf flags).map (fun r => { r with opcode := IORING_OP_SEND }) =
        Send e fd buf flags ∧
      (Recv e fd buf flags).map SQEntry.opcode =
        (Recv e fd buf flags).map (fun _ => IORING_OP_RECV) ∧
      (Send e fd buf flags).map SQEntry.opcode =
        (Send e fd buf flags).map (fun _ => IORING_OP_SEND) ∧
      IORING_OP_RECV ≠ IORING_OP_SEND) := by
  refine ⟨?_, ?_, ⟨rfl, rfl, rfl, by decide⟩, ?_⟩
  · simp only [Read, Write]
    cases buf.addrOfFirst <;> exact ⟨rfl, rfl, rfl, by decide⟩
  · simp only [Readv, Writev]
    cases iovec.addrOfFirst <;> exact ⟨rfl, rfl, rfl, by decide⟩
  · simp only [Recv, Send]
    cases buf.addrOfFirst <;> exact ⟨rfl, rfl, rfl, by decide⟩

/-- C26: each setter writes exactly its own field.  `UserData` after
`SetUserData t` returns t and `GetFlags` after `SetFlags f` returns f;
`SetUserData` leaves every field other than userData unchanged and `SetFlags`
every field other than flags; applying a setter twice keeps the last value. -/
theorem setters_write_own_field (e : SQEntry) (t t2 f f2 : Nat) :
    (e.SetUserData t).UserData = t ∧ (e.SetFlags f).GetFlags = f ∧
    ((e.SetUserData t).opcode = e.opcode ∧ (e.SetUserData t).flags = e.flags ∧
      (e.SetUserData t).ioprio = e.ioprio ∧ (e.SetUserData t).fd = e.fd ∧
      (e.SetUserData t).offset = e.offset ∧ (e.SetUserData t).addr = e.addr ∧
      (e.SetUserData t).len = e.len ∧ (e.SetUserData t).opcodeFlags = e.opcodeFlags ∧
      (e.SetUserData t).bufIG = e.bufIG ∧ (e.SetUserData t).personality = e.personality ∧
      (e.SetUserData t).spliceFdIn = e.spliceFdIn ∧ (e.SetUserData t).pad2 = e.pad2) ∧
    ((e.SetFlags f).opcode = e.opcode ∧ (e.SetFlags f).userData = e.userData ∧
      (e.SetFlags f).ioprio = e.ioprio ∧ (e.SetFlags f).fd = e.fd ∧
      (e.SetFlags f).offset = e.offset ∧ (e.SetFlags f).addr = e.addr ∧
      (e.SetFlags f).len = e.len ∧ (e.SetFlags f).opcodeFlags = e.opcodeFlags ∧
      (e.SetFlags f).bufIG = e.bufIG ∧ (e.SetFlags f).personality = e.personality ∧
      (e.SetFlags f).spliceFdIn = e.spliceFdIn ∧ (e.SetFlags f).pad2 = e.pad2) ∧
    (e.SetUserData t).SetUserData e.userData = e ∧ (e.SetFlags f).SetFlags e.flags = e ∧
    (e.SetUserData t).SetUserData t2 = e.SetUserData t2 ∧
    ((e.SetUserData t).SetUserData t2).UserData = t2 ∧
    (e.SetFlags f).SetFlags f2 = e.SetFlags f2 ∧
    ((e.SetFlags f).SetFlags f2).GetFlags = f2 :=
  ⟨rfl, rfl, ⟨rfl, rfl, rfl, rfl, rfl, rfl, rfl, rfl, rfl, rfl, rfl, rfl⟩,
    ⟨rfl, rfl, rfl, rfl, rfl, rfl, rfl, rfl, rfl, rfl, rfl, rfl⟩, rfl, rfl, rfl, rfl, rfl, rfl⟩

end uring
